import Mathlib

/-!
# Buffered stream adapter (`ioapi_buf.c`)

A shallow embedding of the buffering layer of `ioapi_buf.c` and theorems about it.

* The adapter record `mzstream_buffered` keeps the C field names.  The two byte arrays are
  maps from index to byte; every `uint32_t`/`uint64_t` operation is written with its
  wrap-around (`wrap32`, `wrap64`) and every conversion to a signed result with `toI32`,
  `toI64`.
* Whenever the cache invariant holds (each cursor within its filled length, each filled
  length within the capacity, fields within their C types), the accesses to `readbuf` and
  `writebuf` stay inside the arrays, with one exception: the refill of
  `mzstream_buffered_read` hands the underlying stream the address `readbuf + readbuf_pos`
  together with a request that can be the whole capacity.  That store is therefore modelled
  byte by byte (`store_byte`, `store_read`): a byte stored at or past index
  `IOBUF_BUFFERSIZE` lands in the fields declared after `readbuf`, in the layout of the
  declaration, little-endian, each field at its natural alignment.
* The underlying stream (`buffered->stream.base`, reached through `mzstream_read`,
  `mzstream_write`, ... of `ioapi.h`) is a parameter: a record of transition functions over an
  arbitrary backend state.
* `IOBUF_BUFFERSIZE`, `MZSTREAM_OK` and `MZSTREAM_ERR` are parameters as well (`Config`).
* `Sys.calls` is a ghost log of the calls made to the underlying stream, oldest first.
* Loops are structurally recursive on a fuel argument that the entry points set from the
  request size; running out of fuel is `none`.
-/

namespace IoapiBuf

/-! ## Machine integers -/

abbrev Byte := UInt8

/-- Conversion of an integer to `uint32_t`. -/
def wrap32 (x : Int) : Nat := (x % 4294967296).toNat

/-- Conversion of an integer to `uint64_t`. -/
def wrap64 (x : Int) : Nat := (x % 18446744073709551616).toNat

/-- Conversion of an integer to `int32_t` (two's complement). -/
def toI32 (x : Int) : Int := (x + 2147483648) % 4294967296 - 2147483648

/-- Conversion of an integer to `int64_t` (two's complement). -/
def toI64 (x : Int) : Int :=
  (x + 9223372036854775808) % 18446744073709551616 - 9223372036854775808

/-! ## Data model -/

/-- The `origin` argument of a seek: the three `MZSTREAM_SEEK_*` codes of `ioapi.h`, which the
`switch` of `mzstream_buffered_seekinternal` tells apart, and any other value. -/
inductive Origin
  | MZSTREAM_SEEK_SET
  | MZSTREAM_SEEK_CUR
  | MZSTREAM_SEEK_END
  | other (code : Int)
  deriving DecidableEq, Repr

/-- Build parameters: the buffer capacity and the two status codes of `ioapi.h`. -/
structure Config where
  IOBUF_BUFFERSIZE : Nat
  MZSTREAM_OK : Int
  MZSTREAM_ERR : Int

/-- The record `mzstream_buffered` without its embedded `stream` header. -/
structure mzstream_buffered where
  readbuf : Nat → Byte
  readbuf_len : Nat
  readbuf_pos : Nat
  readbuf_hits : Nat
  readbuf_misses : Nat
  writebuf : Nat → Byte
  writebuf_len : Nat
  writebuf_pos : Nat
  writebuf_hits : Nat
  writebuf_misses : Nat
  position : Nat
  error : Int

/-- The underlying stream `stream.base` as transition functions over its state `β`.
`read b n` yields the `int32_t` result, the bytes stored into the destination, and the next
state; `write` receives the bytes offered. -/
structure mzstream (β : Type) where
  read : β → Nat → Int × List Byte × β
  write : β → List Byte → Int × β
  tell : β → Int × β
  seek : β → Nat → Origin → Int × β
  close : β → Int × β

/-- One call to the underlying stream, with its arguments. -/
inductive Call
  | read (size : Nat)
  | write (data : List Byte)
  | tell
  | seek (offset : Nat) (origin : Origin)
  | close
  deriving DecidableEq, Repr

/-- Adapter record, state of the underlying stream, and the log of calls made to it. -/
structure Sys (β : Type) where
  buffered : mzstream_buffered
  base : β
  calls : List Call

/-- The adapter as `mzstream_buffered_alloc` leaves it: `memset` to zero. -/
def mzstream_buffered_alloc : mzstream_buffered :=
  { readbuf := fun _ => 0, readbuf_len := 0, readbuf_pos := 0, readbuf_hits := 0,
    readbuf_misses := 0, writebuf := fun _ => 0, writebuf_len := 0, writebuf_pos := 0,
    writebuf_hits := 0, writebuf_misses := 0, position := 0, error := 0 }

/-- A freshly allocated adapter over the underlying stream state `b`. -/
def Sys.init {β : Type} (b : β) : Sys β :=
  { buffered := mzstream_buffered_alloc, base := b, calls := [] }

/-- The `n` bytes of `buf` starting at index `off`. -/
def slice (buf : Nat → Byte) (off n : Nat) : List Byte :=
  (List.range n).map (fun i => buf (off + i))

/-- Effect of `memcpy (dst + d, src, |src|)` on the array `dst`. -/
def memcpy (dst : Nat → Byte) (d : Nat) (src : List Byte) : Nat → Byte :=
  fun i => if d ≤ i ∧ i < d + src.length then src.getD (i - d) 0 else dst i

/-! ## `mzstream_buffered_flush` -/

/-- The `while (bytes_left_to_write > 0)` loop of `mzstream_buffered_flush`.  The result is
the returned status, the value stored in `*written`, and the state. -/
def flush_loop {β : Type} (K : Config) (B : mzstream β) :
    Nat → Sys β → Nat → Nat → Nat → Option (Int × Nat × Sys β)
  | 0, _, _, _, _ => none
  | fuel + 1, s, bytes_to_write, bytes_left_to_write, total_bytes_written =>
    if bytes_left_to_write > 0 then
      let data := slice s.buffered.writebuf
        (wrap32 ((bytes_to_write : Int) - bytes_left_to_write)) bytes_left_to_write
      let r := B.write s.base data
      let s1 : Sys β := { s with base := r.2, calls := s.calls ++ [Call.write data] }
      let bytes_written := wrap32 r.1
      if bytes_written ≠ bytes_left_to_write then
        some (K.MZSTREAM_ERR, 0, s1)
      else
        let b := s1.buffered
        let b1 : mzstream_buffered :=
          { b with writebuf_misses := wrap32 ((b.writebuf_misses : Int) + 1),
                   position := wrap64 ((b.position : Int) + bytes_written) }
        flush_loop K B fuel { s1 with buffered := b1 } bytes_to_write
          (wrap32 ((bytes_left_to_write : Int) - bytes_written))
          (wrap32 ((total_bytes_written : Int) + bytes_written))
    else
      let b := s.buffered
      some (K.MZSTREAM_OK, total_bytes_written,
        { s with buffered := { b with writebuf_len := 0, writebuf_pos := 0 } })

/-- The function `mzstream_buffered_flush`: status, `*written`, state. -/
def mzstream_buffered_flush {β : Type} (K : Config) (B : mzstream β) (s : Sys β) :
    Option (Int × Nat × Sys β) :=
  flush_loop K B (s.buffered.writebuf_len + 1) s s.buffered.writebuf_len
    s.buffered.writebuf_len 0

/-! ## `mzstream_buffered_write` -/

/-- The copying part of the loop body of `mzstream_buffered_write`: the `memcpy` of
`bytes_to_copy` bytes of `buf` into the write cache and the cursor updates after it. -/
def write_copy {β : Type} (s : Sys β) (buf : List Byte)
    (bytes_to_write bytes_left_to_write bytes_to_copy : Nat) : Sys β :=
  let b := s.buffered
  let src := (buf.drop (wrap32 ((bytes_to_write : Int) - bytes_left_to_write))).take
    bytes_to_copy
  let writebuf_pos := wrap32 ((b.writebuf_pos : Int) + bytes_to_copy)
  { s with buffered :=
      { b with writebuf := memcpy b.writebuf b.writebuf_pos src,
               writebuf_pos := writebuf_pos,
               writebuf_hits := wrap32 ((b.writebuf_hits : Int) + 1),
               writebuf_len :=
                 if writebuf_pos > b.writebuf_len then
                   wrap32 ((b.writebuf_len : Int) +
                     wrap32 ((writebuf_pos : Int) - b.writebuf_len))
                 else b.writebuf_len } }

/-- The `while (bytes_left_to_write > 0)` loop of `mzstream_buffered_write`; `buf` is the
caller's buffer and `bytes_to_write` the requested size. -/
def write_loop {β : Type} (K : Config) (B : mzstream β) :
    Nat → Sys β → List Byte → Nat → Nat → Option (Int × Sys β)
  | 0, _, _, _, _ => none
  | fuel + 1, s, buf, bytes_to_write, bytes_left_to_write =>
    if bytes_left_to_write > 0 then
      let b := s.buffered
      let bytes_to_copy := min bytes_left_to_write
        (wrap32 ((K.IOBUF_BUFFERSIZE : Int) - min b.writebuf_len b.writebuf_pos))
      if bytes_to_copy = 0 then
        match mzstream_buffered_flush K B s with
        | none => none
        | some (r, bytes_flushed, s1) =>
          if r = K.MZSTREAM_ERR then some (K.MZSTREAM_ERR, s1)
          else if bytes_flushed = 0 then some (0, s1)
          else write_loop K B fuel s1 buf bytes_to_write bytes_left_to_write
      else
        write_loop K B fuel (write_copy s buf bytes_to_write bytes_left_to_write bytes_to_copy)
          buf bytes_to_write (wrap32 ((bytes_left_to_write : Int) - bytes_to_copy))
    else
      some (toI32 (wrap32 ((bytes_to_write : Int) - bytes_left_to_write)), s)

/-- The function `mzstream_buffered_write` on the buffer `buf`, with `size = buf.length`
(a `uint32_t`): the `int32_t` result and the state. -/
def mzstream_buffered_write {β : Type} (K : Config) (B : mzstream β) (s : Sys β)
    (buf : List Byte) : Option (Int × Sys β) :=
  let size := buf.length
  let b := s.buffered
  if b.readbuf_len > 0 then
    let position := wrap64 ((wrap64 ((b.position : Int) - b.readbuf_len) : Int) + b.readbuf_pos)
    let b1 : mzstream_buffered :=
      { b with position := position, readbuf_len := 0, readbuf_pos := 0 }
    let r := B.seek s.base position Origin.MZSTREAM_SEEK_SET
    let s1 : Sys β :=
      { buffered := b1, base := r.2,
        calls := s.calls ++ [Call.seek position Origin.MZSTREAM_SEEK_SET] }
    if r.1 = K.MZSTREAM_ERR then some (K.MZSTREAM_ERR, s1)
    else write_loop K B (2 * size + 2) s1 buf size size
  else
    write_loop K B (2 * size + 2) s buf size size

/-! ## `mzstream_buffered_read` -/

/-- The unsigned value `v` with its byte number `j` (0 the lowest) replaced by `x`. -/
def set_byte (v j : Nat) (x : Byte) : Nat :=
  v - v / 256 ^ j % 256 * 256 ^ j + x.toNat * 256 ^ j

/-- Store of the byte `x` at the address `readbuf + i`.  For `i < IOBUF_BUFFERSIZE` this is
the element `readbuf[i]`.  Past the array the address belongs to what the declaration of
`mzstream_buffered` puts after it: padding up to the next multiple of 4, the four `uint32_t`
fields `readbuf_len`, `readbuf_pos`, `readbuf_hits`, `readbuf_misses`, the array `writebuf`,
padding, the four `uint32_t` fields of the write cache, the `uint64_t` `position` and the
`int32_t` `error`, all little-endian.  An address past the end of the record is outside the
model and the record is returned as it is. -/
def store_byte (K : Config) (b : mzstream_buffered) (i : Nat) (x : Byte) :
    mzstream_buffered :=
  let c := K.IOBUF_BUFFERSIZE
  -- offset of `readbuf_len` from `readbuf`
  let r := c + (4 - c % 4) % 4
  -- offset of `writebuf`, and of `writebuf_len`, from `readbuf`
  let w := r + 16
  let v := w + r
  if i < c then { b with readbuf := fun k => if k = i then x else b.readbuf k }
  else if i < r then b
  else if i < r + 4 then { b with readbuf_len := set_byte b.readbuf_len (i - r) x }
  else if i < r + 8 then { b with readbuf_pos := set_byte b.readbuf_pos (i - (r + 4)) x }
  else if i < r + 12 then { b with readbuf_hits := set_byte b.readbuf_hits (i - (r + 8)) x }
  else if i < r + 16 then
    { b with readbuf_misses := set_byte b.readbuf_misses (i - (r + 12)) x }
  else if i < w + c then
    { b with writebuf := fun k => if k = i - w then x else b.writebuf k }
  else if i < v then b
  else if i < v + 4 then { b with writebuf_len := set_byte b.writebuf_len (i - v) x }
  else if i < v + 8 then { b with writebuf_pos := set_byte b.writebuf_pos (i - (v + 4)) x }
  else if i < v + 12 then
    { b with writebuf_hits := set_byte b.writebuf_hits (i - (v + 8)) x }
  else if i < v + 16 then
    { b with writebuf_misses := set_byte b.writebuf_misses (i - (v + 12)) x }
  else if i < v + 24 then { b with position := set_byte b.position (i - (v + 16)) x }
  else if i < v + 28 then
    { b with error := toI32 (set_byte (wrap32 b.error) (i - (v + 24)) x) }
  else b

/-- Effect on the record of the underlying stream storing the bytes `data` at
`readbuf + i`, lowest address first. -/
def store_read (K : Config) : mzstream_buffered → Nat → List Byte → mzstream_buffered
  | b, _, [] => b
  | b, i, x :: data => store_read K (store_byte K b i x) (i + 1) data

/-- The `while (bytes_left_to_read > 0)` loop of `mzstream_buffered_read`.  `dest` is what
has been copied into the caller's buffer so far (`buf_len` is its length); `bytes_read` is
the local of that name, which the function initialises to 0 and never assigns.  The refill
hands the underlying stream the address `readbuf + readbuf_pos` and the stream stores there
what it delivers (`store_read`).  The result is the `int32_t` result, the bytes copied to the
caller, and the state. -/
def read_loop {β : Type} (K : Config) (B : mzstream β) :
    Nat → Sys β → List Byte → Nat → Nat → Nat → Option (Int × List Byte × Sys β)
  | 0, _, _, _, _, _ => none
  | fuel + 1, s, dest, size, bytes_left_to_read, bytes_read =>
    if bytes_left_to_read > 0 then
      let b := s.buffered
      -- the copy-out part of the body, run on the state the refill part leaves
      let copy_out := fun (s2 : Sys β) =>
        let b2 := s2.buffered
        if wrap32 ((b2.readbuf_len : Int) - b2.readbuf_pos) > 0 then
          let bytes_to_copy := min bytes_left_to_read
            (wrap32 ((b2.readbuf_len : Int) - b2.readbuf_pos))
          let dest1 := dest ++ slice b2.readbuf b2.readbuf_pos bytes_to_copy
          let b3 : mzstream_buffered :=
            { b2 with readbuf_hits := wrap32 ((b2.readbuf_hits : Int) + 1),
                      readbuf_pos := wrap32 ((b2.readbuf_pos : Int) + bytes_to_copy) }
          read_loop K B fuel { s2 with buffered := b3 } dest1 size
            (wrap32 ((bytes_left_to_read : Int) - bytes_to_copy)) bytes_read
        else
          read_loop K B fuel s2 dest size bytes_left_to_read bytes_read
      if b.readbuf_len = 0 ∨ b.readbuf_pos = b.readbuf_len then
        let b1 : mzstream_buffered :=
          if b.readbuf_len = K.IOBUF_BUFFERSIZE then
            { b with readbuf_pos := 0, readbuf_len := 0 }
          else b
        let bytes_to_read :=
          wrap32 ((K.IOBUF_BUFFERSIZE : Int) - wrap32 ((b1.readbuf_len : Int) - b1.readbuf_pos))
        let r := B.read s.base bytes_to_read
        let b2 : mzstream_buffered :=
          store_read K b1 b1.readbuf_pos (r.2.1.take bytes_to_read)
        let s1 : Sys β :=
          { buffered := b2, base := r.2.2, calls := s.calls ++ [Call.read bytes_to_read] }
        if wrap32 r.1 ≠ bytes_to_read then
          some (0, dest, s1)
        else
          let b3 : mzstream_buffered :=
            { b2 with readbuf_misses := wrap32 ((b2.readbuf_misses : Int) + 1),
                      readbuf_len := wrap32 ((b2.readbuf_len : Int) + bytes_read),
                      position := wrap64 ((b2.position : Int) + bytes_read) }
          let s2 : Sys β := { s1 with buffered := b3 }
          if bytes_read = 0 then
            some (toI32 (wrap32 ((size : Int) - bytes_left_to_read)), dest, s2)
          else copy_out s2
      else copy_out s
    else
      some (toI32 (wrap32 ((size : Int) - bytes_left_to_read)), dest, s)

/-- The function `mzstream_buffered_read` for a request of `size` bytes (a `uint32_t`). -/
def mzstream_buffered_read {β : Type} (K : Config) (B : mzstream β) (s : Sys β)
    (size : Nat) : Option (Int × List Byte × Sys β) :=
  read_loop K B (size + 1) s [] size size 0

/-! ## `mzstream_buffered_tell` -/

/-- The function `mzstream_buffered_tellinternal`: it stores `position` and returns it
corrected for the cache cursors, as an `int64_t`. -/
def mzstream_buffered_tellinternal (b : mzstream_buffered) (position : Nat) :
    Int × mzstream_buffered :=
  let b1 : mzstream_buffered := { b with position := position }
  let p1 :=
    if b1.readbuf_len > 0 then
      wrap64 ((position : Int) - wrap32 ((b1.readbuf_len : Int) - b1.readbuf_pos))
    else position
  let p2 :=
    if b1.writebuf_len > 0 then wrap64 ((p1 : Int) + b1.writebuf_pos) else p1
  (toI64 p2, b1)

/-- The function `mzstream_buffered_tell`. -/
def mzstream_buffered_tell {β : Type} (B : mzstream β) (s : Sys β) : Int × Sys β :=
  let r := B.tell s.base
  let position := toI64 r.1
  let t := mzstream_buffered_tellinternal s.buffered (wrap64 position)
  (t.1, { buffered := t.2, base := r.2, calls := s.calls ++ [Call.tell] })

/-! ## `mzstream_buffered_seek` -/

/-- The statements after the `switch` of `mzstream_buffered_seekinternal`: both caches are
emptied and `MZSTREAM_ERR` is returned. -/
def seekinternal_tail (K : Config) (b : mzstream_buffered) : Int × mzstream_buffered :=
  (K.MZSTREAM_ERR,
    { b with readbuf_len := 0, readbuf_pos := 0, writebuf_len := 0, writebuf_pos := 0 })

/-- The function `mzstream_buffered_seekinternal`. -/
def mzstream_buffered_seekinternal {β : Type} (K : Config) (B : mzstream β) (s : Sys β)
    (offset : Nat) (origin : Origin) : Option (Int × Sys β) :=
  let b := s.buffered
  match origin with
  | Origin.MZSTREAM_SEEK_SET =>
    if b.writebuf_len > 0 ∧ offset ≥ b.position ∧
        offset ≤ wrap64 ((b.position : Int) + b.writebuf_len) then
      some (K.MZSTREAM_OK,
        { s with buffered :=
            { b with writebuf_pos := wrap32 (wrap64 ((offset : Int) - b.position)) } })
    else if b.readbuf_len > 0 ∧ offset < b.position ∧
        offset ≥ wrap64 ((b.position : Int) - b.readbuf_len) then
      some (K.MZSTREAM_OK,
        { s with buffered :=
            { b with readbuf_pos :=
                wrap32 (wrap64 ((offset : Int) -
                  wrap64 ((b.position : Int) - b.readbuf_len))) } })
    else
      match mzstream_buffered_flush K B s with
      | none => none
      | some (r, _, s1) =>
        if r = K.MZSTREAM_ERR then some (K.MZSTREAM_ERR, s1)
        else
          let t := seekinternal_tail K { s1.buffered with position := offset }
          some (t.1, { s1 with buffered := t.2 })
  | Origin.MZSTREAM_SEEK_CUR =>
    let unread := wrap32 ((b.readbuf_len : Int) - b.readbuf_pos)
    if b.readbuf_len > 0 ∧ offset ≤ unread then
      some (K.MZSTREAM_OK,
        { s with buffered :=
            { b with readbuf_pos := wrap32 ((b.readbuf_pos : Int) + wrap32 offset) } })
    else
      let offset1 := if b.readbuf_len > 0 then wrap64 ((offset : Int) - unread) else offset
      let b1 : mzstream_buffered :=
        if b.readbuf_len > 0 then { b with position := wrap64 ((b.position : Int) + offset1) }
        else b
      if b1.writebuf_len > 0 ∧
          offset1 ≤ wrap32 ((b1.writebuf_len : Int) - b1.writebuf_pos) then
        some (K.MZSTREAM_OK,
          { s with buffered :=
              { b1 with writebuf_pos := wrap32 ((b1.writebuf_pos : Int) + wrap32 offset1) } })
      else
        match mzstream_buffered_flush K B { s with buffered := b1 } with
        | none => none
        | some (r, _, s1) =>
          if r = K.MZSTREAM_ERR then some (K.MZSTREAM_ERR, s1)
          else
            let t := seekinternal_tail K s1.buffered
            some (t.1, { s1 with buffered := t.2 })
  | Origin.MZSTREAM_SEEK_END =>
    if b.writebuf_len > 0 then
      some (K.MZSTREAM_OK, { s with buffered := { b with writebuf_pos := b.writebuf_len } })
    else
      let t := seekinternal_tail K b
      some (t.1, { s with buffered := t.2 })
  | Origin.other _ =>
    let t := seekinternal_tail K b
    some (t.1, { s with buffered := t.2 })

/-- The function `mzstream_buffered_seek`: the underlying seek is called whenever
`mzstream_buffered_seekinternal` does not return `MZSTREAM_ERR`. -/
def mzstream_buffered_seek {β : Type} (K : Config) (B : mzstream β) (s : Sys β)
    (offset : Nat) (origin : Origin) : Option (Int × Sys β) :=
  match mzstream_buffered_seekinternal K B s offset origin with
  | none => none
  | some (r, s1) =>
    if r = K.MZSTREAM_ERR then some (K.MZSTREAM_ERR, s1)
    else
      let q := B.seek s1.base offset origin
      some (q.1, { s1 with base := q.2, calls := s1.calls ++ [Call.seek offset origin] })

/-! ## `mzstream_buffered_close` -/

/-- The function `mzstream_buffered_close`: the flush result is dropped and the result of the
underlying close is returned. -/
def mzstream_buffered_close {β : Type} (K : Config) (B : mzstream β) (s : Sys β) :
    Option (Int × Sys β) :=
  match mzstream_buffered_flush K B s with
  | none => none
  | some (_, _, s1) =>
    let r := B.close s1.base
    some (r.1, { s1 with base := r.2, calls := s1.calls ++ [Call.close] })

/-! ## Scenario drivers and observers -/

/-- The payloads of the write calls in a call log, oldest first. -/
def writesOf : List Call → List (List Byte)
  | [] => []
  | Call.write d :: cs => d :: writesOf cs
  | _ :: cs => writesOf cs

/-- All bytes the underlying stream has been handed, in order. -/
def delivered (calls : List Call) : List Byte := (writesOf calls).flatten

/-- The underlying write accepts every byte offered: its result is the number of bytes. -/
def AcceptsAll {β : Type} (B : mzstream β) : Prop :=
  ∀ b d, (B.write b d).1 = toI32 d.length

/-- State after a flush in which the underlying write took the whole cache. -/
def flush_ok_state {β : Type} (B : mzstream β) (s : Sys β) : Sys β :=
  let b := s.buffered
  if b.writebuf_len > 0 then
    let data := slice b.writebuf 0 b.writebuf_len
    { buffered :=
        { b with writebuf_misses := wrap32 ((b.writebuf_misses : Int) + 1),
                 position := wrap64 ((b.position : Int) + b.writebuf_len),
                 writebuf_len := 0, writebuf_pos := 0 },
      base := (B.write s.base data).2,
      calls := s.calls ++ [Call.write data] }
  else { s with buffered := { b with writebuf_len := 0, writebuf_pos := 0 } }

/-- Loop invariant of a run of writes over an accepting stream: the read cache is empty, the
write cursor is at the end of the write cache, and the bytes delivered so far followed by the
cached bytes are `data`; every delivered chunk was a full cache. -/
def WInv {β : Type} (K : Config) (s : Sys β) (data : List Byte) : Prop :=
  s.buffered.readbuf_len = 0 ∧
  s.buffered.writebuf_pos = s.buffered.writebuf_len ∧
  s.buffered.writebuf_len ≤ K.IOBUF_BUFFERSIZE ∧
  delivered s.calls ++ slice s.buffered.writebuf 0 s.buffered.writebuf_len = data ∧
  (writesOf s.calls).length * K.IOBUF_BUFFERSIZE + s.buffered.writebuf_len = data.length

/-- Invariant between the calls of a run of writes: `WInv`, and a non-empty history leaves a
non-empty write cache. -/
def RunInv {β : Type} (K : Config) (s : Sys β) (data : List Byte) : Prop :=
  WInv K s data ∧ (0 < data.length → 0 < s.buffered.writebuf_len)

/-- A run of `mzstream_buffered_write` calls, one per buffer, in order: the results of the
calls and the final state. -/
def run_writes {β : Type} (K : Config) (B : mzstream β) :
    Sys β → List (List Byte) → Option (List Int × Sys β)
  | s, [] => some ([], s)
  | s, buf :: rest =>
    match mzstream_buffered_write K B s buf with
    | none => none
    | some (r, s1) =>
      match run_writes K B s1 rest with
      | none => none
      | some (rs, s2) => some (r :: rs, s2)

/-- A run of writes on a fresh adapter followed by `mzstream_buffered_close`: the results of
the writes, the result of the close, and the final state. -/
def write_then_close {β : Type} (K : Config) (B : mzstream β) (b0 : β)
    (bufs : List (List Byte)) : Option (List Int × Int × Sys β) :=
  match run_writes K B (Sys.init b0) bufs with
  | none => none
  | some (rs, s) =>
    match mzstream_buffered_close K B s with
    | none => none
    | some (rc, s1) => some (rs, rc, s1)

/-- An in-memory byte store with a cursor: the well-behaved stream against which the
adapter is exercised. -/
structure MemStream where
  data : List Byte
  cursor : Nat
  deriving DecidableEq, Repr

/-- Read of `n` bytes at the cursor: as many as are there. -/
def MemStream.read (m : MemStream) (n : Nat) : Int × List Byte × MemStream :=
  let chunk := (m.data.drop m.cursor).take n
  (toI32 chunk.length, chunk, { m with cursor := m.cursor + chunk.length })

/-- Write at the cursor: overwrites and extends the store, and takes every byte. -/
def MemStream.write (m : MemStream) (d : List Byte) : Int × MemStream :=
  let before := m.data.take m.cursor ++ List.replicate (m.cursor - m.data.length) 0
  (toI32 d.length,
    { data := before ++ d ++ m.data.drop (m.cursor + d.length),
      cursor := m.cursor + d.length })

/-- Seek of the in-memory store: every origin it knows succeeds. -/
def MemStream.seek (K : Config) (m : MemStream) (offset : Nat) :
    Origin → Int × MemStream
  | Origin.MZSTREAM_SEEK_SET => (K.MZSTREAM_OK, { m with cursor := offset })
  | Origin.MZSTREAM_SEEK_CUR => (K.MZSTREAM_OK, { m with cursor := m.cursor + offset })
  | Origin.MZSTREAM_SEEK_END => (K.MZSTREAM_OK, { m with cursor := m.data.length + offset })
  | Origin.other _ => (K.MZSTREAM_ERR, m)

/-- The in-memory store as an underlying stream. -/
def memStream (K : Config) : mzstream MemStream :=
  { read := MemStream.read
    write := MemStream.write
    tell := fun m => ((m.cursor : Int), m)
    seek := MemStream.seek K
    close := fun m => (K.MZSTREAM_OK, m) }

/-- A small configuration: capacity 4, `MZSTREAM_OK = 0`, `MZSTREAM_ERR = -1`. -/
def cfg4 : Config := { IOBUF_BUFFERSIZE := 4, MZSTREAM_OK := 0, MZSTREAM_ERR := -1 }

/-- A configuration whose capacity does not fit the `uint32_t` length fields: `2^32`. -/
def cfgWide : Config :=
  { IOBUF_BUFFERSIZE := 4294967296, MZSTREAM_OK := 0, MZSTREAM_ERR := -1 }

/-- The empty in-memory store. -/
def emptyStore : MemStream := { data := [], cursor := 0 }

/-- A buffer of `2^31` zero bytes: the smallest size above `INT32_MAX`. -/
def hugeBuf : List Byte := List.replicate 2147483648 0

/-- The buffers of the capacity-4 scenario: "AB" and "CDE". -/
def scenarioBufs : List (List Byte) := [[65, 66], [67, 68, 69]]

/-- A run of `mzstream_buffered_read` calls, one per requested size, in order: the results of
the calls, all bytes copied to the caller, and the final state. -/
def run_reads {β : Type} (K : Config) (B : mzstream β) :
    Sys β → List Nat → Option (List Int × List Byte × Sys β)
  | s, [] => some ([], [], s)
  | s, size :: rest =>
    match mzstream_buffered_read K B s size with
    | none => none
    | some (r, dest, s1) =>
      match run_reads K B s1 rest with
      | none => none
      | some (rs, got, s2) => some (r :: rs, dest ++ got, s2)

/-- The round trip: writes on a fresh adapter, `mzstream_buffered_seek (0, MZSTREAM_SEEK_SET)`,
then reads.  The result is the seek status, the read results, and the bytes read. -/
def round_trip {β : Type} (K : Config) (B : mzstream β) (b0 : β)
    (bufs : List (List Byte)) (sizes : List Nat) : Option (Int × List Int × List Byte) :=
  match run_writes K B (Sys.init b0) bufs with
  | none => none
  | some (_, s1) =>
    match mzstream_buffered_seek K B s1 0 Origin.MZSTREAM_SEEK_SET with
    | none => none
    | some (rseek, s2) =>
      match run_reads K B s2 sizes with
      | none => none
      | some (rs, got, _) => some (rseek, rs, got)

/-- A caller's operation on a stream. -/
inductive Op
  | read (size : Nat)
  | write (buf : List Byte)
  | seek (offset : Nat) (origin : Origin)
  deriving DecidableEq, Repr

/-- One operation applied through the adapter. -/
def buffered_op {β : Type} (K : Config) (B : mzstream β) (s : Sys β) : Op → Option (Sys β)
  | Op.read size => (mzstream_buffered_read K B s size).map (fun r => r.2.2)
  | Op.write buf => (mzstream_buffered_write K B s buf).map (fun r => r.2)
  | Op.seek offset origin => (mzstream_buffered_seek K B s offset origin).map (fun r => r.2)

/-- A sequence of operations applied through a fresh adapter, then `mzstream_buffered_tell`. -/
def buffered_tell_after {β : Type} (K : Config) (B : mzstream β) (b0 : β) (ops : List Op) :
    Option Int :=
  (ops.foldlM (buffered_op K B) (Sys.init b0)).map (fun s => (mzstream_buffered_tell B s).1)

/-- One operation applied to the in-memory store directly. -/
def direct_op (K : Config) (m : MemStream) : Op → MemStream
  | Op.read size => (m.read size).2.2
  | Op.write buf => (m.write buf).2
  | Op.seek offset origin => (MemStream.seek K m offset origin).2

/-- A sequence of operations applied to the in-memory store directly, then its tell. -/
def direct_tell_after (K : Config) (m0 : MemStream) (ops : List Op) : Int :=
  ((memStream K).tell (ops.foldl (direct_op K) m0)).1

/-- The in-memory store holding "HELLOWORLD", cursor at the start. -/
def helloStore : MemStream :=
  { data := [72, 69, 76, 76, 79, 87, 79, 82, 76, 68], cursor := 0 }

/-- The in-memory store holding "HEL", cursor at the start. -/
def helStore : MemStream := { data := [72, 69, 76], cursor := 0 }

/-- The fresh capacity-4 adapter after "AB" has been copied into its write cache. -/
def cachedAB : Sys MemStream := write_copy (Sys.init emptyStore) [65, 66] 2 2 2

/-- The state `cachedAB` with the write cursor moved back to index 1. -/
def cachedABCursor1 : Sys MemStream :=
  { cachedAB with buffered := { cachedAB.buffered with writebuf_pos := 1 } }

/-- The cache invariant: each cursor is within its filled length, and each filled length is
within the capacity. -/
def CacheInv (K : Config) (b : mzstream_buffered) : Prop :=
  b.readbuf_pos ≤ b.readbuf_len ∧ b.readbuf_len ≤ K.IOBUF_BUFFERSIZE ∧
  b.writebuf_pos ≤ b.writebuf_len ∧ b.writebuf_len ≤ K.IOBUF_BUFFERSIZE

instance (K : Config) (b : mzstream_buffered) : Decidable (CacheInv K b) := by
  unfold CacheInv; infer_instance

/-! ## Typing of the adapter record, closed form of a flush, further scenarios -/

/-- The fields of the record hold values of their C types: the four cache fields are
`uint32_t` and `position` is `uint64_t`. -/
def Typed (b : mzstream_buffered) : Prop :=
  b.readbuf_len < 4294967296 ∧ b.readbuf_pos < 4294967296 ∧
  b.writebuf_len < 4294967296 ∧ b.writebuf_pos < 4294967296 ∧
  b.position < 18446744073709551616

instance (b : mzstream_buffered) : Decidable (Typed b) := by
  unfold Typed; infer_instance

/-- What `mzstream_buffered_flush` comes to, without the loop: nothing to do for an empty write
cache; otherwise one write of the whole cache, which either is taken in full
(`MZSTREAM_OK`, the cache is reset and `position` advanced) or is not (`MZSTREAM_ERR`, the
record is left as it was). -/
def flush_result {β : Type} (K : Config) (B : mzstream β) (s : Sys β) : Int × Nat × Sys β :=
  let b := s.buffered
  if b.writebuf_len = 0 then
    (K.MZSTREAM_OK, 0, { s with buffered := { b with writebuf_len := 0, writebuf_pos := 0 } })
  else
    let data := slice b.writebuf 0 b.writebuf_len
    let r := B.write s.base data
    if wrap32 r.1 ≠ b.writebuf_len then
      (K.MZSTREAM_ERR, 0, { s with base := r.2, calls := s.calls ++ [Call.write data] })
    else
      (K.MZSTREAM_OK, b.writebuf_len,
        { buffered :=
            { b with writebuf_misses := wrap32 ((b.writebuf_misses : Int) + 1),
                     position := wrap64 ((b.position : Int) + b.writebuf_len),
                     writebuf_len := 0, writebuf_pos := 0 },
          base := r.2, calls := s.calls ++ [Call.write data] })

/-- An in-memory stream whose write stores nothing and returns `ret`. -/
def brokenStream (K : Config) (ret : Int) : mzstream MemStream :=
  { read := MemStream.read
    write := fun m _ => (ret, m)
    tell := fun m => ((m.cursor : Int), m)
    seek := MemStream.seek K
    close := fun m => (K.MZSTREAM_OK, m) }

/-- An in-memory stream whose first write call takes only the first 2 bytes offered and whose
later write calls take everything; the second component counts the write calls. -/
def shortStream (K : Config) : mzstream (MemStream × Nat) :=
  { read := fun m n => ((m.1.read n).1, (m.1.read n).2.1, ((m.1.read n).2.2, m.2))
    write := fun m d =>
      if m.2 = 0 then ((m.1.write (d.take 2)).1, ((m.1.write (d.take 2)).2, m.2 + 1))
      else ((m.1.write d).1, ((m.1.write d).2, m.2 + 1))
    tell := fun m => ((m.1.cursor : Int), m)
    seek := fun m o g => ((MemStream.seek K m.1 o g).1, ((MemStream.seek K m.1 o g).2, m.2))
    close := fun m => (K.MZSTREAM_OK, m) }

/-- A fresh capacity-4 adapter over the stream state `b0` after "ABCD" has been copied into
its write cache: the cache is full. -/
def cachedABCD {β : Type} (b0 : β) : Sys β :=
  write_copy (Sys.init b0) [65, 66, 67, 68] 4 4 4

/-- The state `cachedAB` with `position` at the largest `uint64_t` value. -/
def cachedABAtTop : Sys MemStream :=
  { cachedAB with buffered := { cachedAB.buffered with position := 18446744073709551615 } }

/-- The fuel an iteration of the write loop needs: none when nothing is left; when the next
iteration flushes, one step for an empty write cache and `2 * left + 1` otherwise; `2 * left`
when it copies. -/
def write_need {β : Type} (K : Config) (s : Sys β) (left : Nat) : Nat :=
  if left = 0 then 0
  else if min left (wrap32 ((K.IOBUF_BUFFERSIZE : Int)
      - (min s.buffered.writebuf_len s.buffered.writebuf_pos : Nat))) = 0 then
    (if s.buffered.writebuf_len = 0 then 0 else 2 * left + 1)
  else 2 * left

/-- The write-cache half of the cache invariant: `writebuf_pos <= writebuf_len <= capacity`. -/
def WriteInv (K : Config) (b : mzstream_buffered) : Prop :=
  b.writebuf_pos ≤ b.writebuf_len ∧ b.writebuf_len ≤ K.IOBUF_BUFFERSIZE

instance (K : Config) (b : mzstream_buffered) : Decidable (WriteInv K b) := by
  unfold WriteInv; infer_instance

/-- The state in which `mzstream_buffered_write` leaves the adapter after a read-to-write mode
switch, as the specification words it: `position` rolled back to just after the bytes
already consumed, the read cache emptied, the write cache untouched, and one seek of the
underlying stream to that position logged. -/
def mode_switch_state {β : Type} (B : mzstream β) (s : Sys β) : Sys β :=
  let p := s.buffered.position - s.buffered.readbuf_len + s.buffered.readbuf_pos
  { buffered := { s.buffered with position := p, readbuf_len := 0, readbuf_pos := 0 },
    base := (B.seek s.base p Origin.MZSTREAM_SEEK_SET).2,
    calls := s.calls ++ [Call.seek p Origin.MZSTREAM_SEEK_SET] }

/-- A capacity-4 adapter over "HELLOWORLD" whose read cache holds "HELL" with 3 bytes
consumed: `position` and the cursor of the stream are at 4. -/
def readAhead : Sys MemStream :=
  { buffered :=
      { mzstream_buffered_alloc with
          readbuf := memcpy mzstream_buffered_alloc.readbuf 0 [72, 69, 76, 76],
          readbuf_len := 4, readbuf_pos := 3, position := 4 },
    base := { helloStore with cursor := 4 },
    calls := [] }

/-- The state after the mode-switch block at the head of `mzstream_buffered_write`, as the
code computes it (`uint64_t` arithmetic), the call to the seek of the underlying stream
included. -/
def write_switch {β : Type} (B : mzstream β) (s : Sys β) : Sys β :=
  { buffered :=
      { s.buffered with
          position := wrap64 ((wrap64 ((s.buffered.position : Int) - s.buffered.readbuf_len)
            : Int) + s.buffered.readbuf_pos),
          readbuf_len := 0, readbuf_pos := 0 },
    base := (B.seek s.base
      (wrap64 ((wrap64 ((s.buffered.position : Int) - s.buffered.readbuf_len) : Int)
        + s.buffered.readbuf_pos)) Origin.MZSTREAM_SEEK_SET).2,
    calls := s.calls ++ [Call.seek
      (wrap64 ((wrap64 ((s.buffered.position : Int) - s.buffered.readbuf_len) : Int)
        + s.buffered.readbuf_pos)) Origin.MZSTREAM_SEEK_SET] }

/-- A one-byte buffer, "E". -/
def oneByte : List Byte := [69]

/-- The in-memory store as an underlying stream whose seek fails: it returns `MZSTREAM_ERR`
and moves nothing. -/
def seekFailStream (K : Config) : mzstream MemStream :=
  { read := MemStream.read
    write := MemStream.write
    tell := fun m => ((m.cursor : Int), m)
    seek := fun m _ _ => (K.MZSTREAM_ERR, m)
    close := fun m => (K.MZSTREAM_OK, m) }

/-- The number of bytes a refill of `mzstream_buffered_read` asks for in state `s`, after the
reset of a completely filled read cache. -/
def refill_request {β : Type} (K : Config) (s : Sys β) : Nat :=
  if s.buffered.readbuf_len = K.IOBUF_BUFFERSIZE then wrap32 ((K.IOBUF_BUFFERSIZE : Int)
      - wrap32 (((0 : Nat) : Int) - (0 : Nat)))
  else wrap32 ((K.IOBUF_BUFFERSIZE : Int)
      - wrap32 ((s.buffered.readbuf_len : Int) - s.buffered.readbuf_pos))

/-- The state of `mzstream_buffered_read` right after the read call of a refill: the bytes the
stream delivered are in `readbuf`, the call is logged, and no length has been updated. -/
def refill_state {β : Type} (K : Config) (B : mzstream β) (s : Sys β) : Sys β :=
  let b := s.buffered
  let b1 : mzstream_buffered :=
    if b.readbuf_len = K.IOBUF_BUFFERSIZE then { b with readbuf_pos := 0, readbuf_len := 0 }
    else b
  let r := B.read s.base (refill_request K s)
  { buffered := store_read K b1 b1.readbuf_pos (r.2.1.take (refill_request K s)),
    base := r.2.2, calls := s.calls ++ [Call.read (refill_request K s)] }

/-- The state of `mzstream_buffered_read` after the bookkeeping of a full refill, in which
`bytes_read` is 0. -/
def refill_done {β : Type} (K : Config) (B : mzstream β) (s : Sys β) : Sys β :=
  let s1 := refill_state K B s
  let b2 := s1.buffered
  { s1 with buffered :=
      { b2 with readbuf_misses := wrap32 ((b2.readbuf_misses : Int) + 1),
                readbuf_len := wrap32 ((b2.readbuf_len : Int) + (0 : Nat)),
                position := wrap64 ((b2.position : Int) + (0 : Nat)) } }

/-- The state of `mzstream_buffered_read` after `bytes_to_copy` bytes have been copied out of
the read cache. -/
def read_copy {β : Type} (s : Sys β) (bytes_to_copy : Nat) : Sys β :=
  let b := s.buffered
  { s with buffered :=
      { b with readbuf_hits := wrap32 ((b.readbuf_hits : Int) + 1),
               readbuf_pos := wrap32 ((b.readbuf_pos : Int) + bytes_to_copy) } }

/-- The states an adapter over the stream `B`, started on the stream state `b0`, can be in
after a call has returned: the zero-initialised adapter, and whatever a read, write, seek
(with a `uint64_t` offset), tell or flush leaves from such a state. -/
inductive Reachable {β : Type} (K : Config) (B : mzstream β) (b0 : β) : Sys β → Prop
  | init : Reachable K B b0 (Sys.init b0)
  | read (s : Sys β) (size : Nat) (r : Int) (dest : List Byte) (s' : Sys β) :
      Reachable K B b0 s → mzstream_buffered_read K B s size = some (r, dest, s') →
      Reachable K B b0 s'
  | write (s : Sys β) (buf : List Byte) (r : Int) (s' : Sys β) :
      Reachable K B b0 s → mzstream_buffered_write K B s buf = some (r, s') →
      Reachable K B b0 s'
  | seek (s : Sys β) (offset : Nat) (origin : Origin) (r : Int) (s' : Sys β) :
      Reachable K B b0 s → offset < 18446744073709551616 →
      mzstream_buffered_seek K B s offset origin = some (r, s') → Reachable K B b0 s'
  | tell (s : Sys β) : Reachable K B b0 s → Reachable K B b0 (mzstream_buffered_tell B s).2
  | flush (s : Sys β) (r : Int) (written : Nat) (s' : Sys β) :
      Reachable K B b0 s → mzstream_buffered_flush K B s = some (r, written, s') →
      Reachable K B b0 s'

/-! ## Lemmas on machine arithmetic, buffers and the call log -/

theorem writesOf_append (xs ys : List Call) : writesOf (xs ++ ys) = writesOf xs ++ writesOf ys := by
  induction xs with
  | nil => rfl
  | cons c cs ih => cases c <;> simp [writesOf, ih]

theorem slice_length (buf : Nat → Byte) (off n : Nat) : (slice buf off n).length = n := by
  simp [slice]

theorem wrap32_toI32_cast (n : Nat) (h : n < 4294967296) : wrap32 (toI32 (n : Int)) = n := by
  unfold wrap32 toI32; omega

theorem wrap32_cast (n : Nat) (h : n < 4294967296) : wrap32 (n : Int) = n := by
  unfold wrap32; omega

theorem wrap32_sub_cast (a b : Nat) (h : a < 4294967296) (hb : b ≤ a) :
    wrap32 ((a : Int) - b) = a - b := by
  unfold wrap32; omega

theorem wrap32_add_cast (a b : Nat) (h : a + b < 4294967296) :
    wrap32 ((a : Int) + b) = a + b := by
  unfold wrap32; omega

theorem flush_accept {β : Type} (K : Config) (B : mzstream β) (s : Sys β)
    (hB : AcceptsAll B) (hlen : s.buffered.writebuf_len < 4294967296) :
    mzstream_buffered_flush K B s
      = some (K.MZSTREAM_OK, s.buffered.writebuf_len, flush_ok_state B s) := by
  unfold mzstream_buffered_flush flush_ok_state
  rcases Nat.eq_zero_or_pos s.buffered.writebuf_len with h0 | hpos
  · simp [h0, flush_loop]
  · have hf : s.buffered.writebuf_len + 1 = (s.buffered.writebuf_len - 1) + 1 + 1 := by omega
    rw [hf]
    have h1 : wrap32 ((s.buffered.writebuf_len : Int) - s.buffered.writebuf_len) = 0 := by
      rw [wrap32_sub_cast _ _ hlen (le_refl _)]; omega
    have h2 : wrap32 (((0 : Nat) : Int) + s.buffered.writebuf_len) = s.buffered.writebuf_len := by
      rw [wrap32_add_cast _ _ (by omega)]; omega
    have hw : ∀ b d, (B.write b d).1 = toI32 ((d.length : Nat) : Int) := hB
    simp only [flush_loop, hw, slice_length, wrap32_toI32_cast _ hlen, h1, h2, hpos,
      if_true, ne_eq, not_true_eq_false, if_false, lt_irrefl, gt_iff_lt]

theorem slice_zero (buf : Nat → Byte) (off : Nat) : slice buf off 0 = [] := by
  simp [slice]

theorem delivered_append_write (calls : List Call) (d : List Byte) :
    delivered (calls ++ [Call.write d]) = delivered calls ++ d := by
  simp [delivered, writesOf_append, writesOf]

theorem writesOf_append_write_length (calls : List Call) (d : List Byte) :
    (writesOf (calls ++ [Call.write d])).length = (writesOf calls).length + 1 := by
  simp [writesOf_append, writesOf]

theorem WInv_flush {β : Type} (K : Config) (B : mzstream β) (s : Sys β) (data : List Byte)
    (h : WInv K s data) (hfull : s.buffered.writebuf_len = K.IOBUF_BUFFERSIZE)
    (hpos : 0 < K.IOBUF_BUFFERSIZE) :
    WInv K (flush_ok_state B s) data ∧ (flush_ok_state B s).buffered.writebuf_len = 0 := by
  obtain ⟨h1, h2, h3, h4, h5⟩ := h
  have hl : s.buffered.writebuf_len > 0 := by omega
  unfold flush_ok_state
  simp only [hl, if_true]
  refine ⟨⟨h1, rfl, Nat.zero_le _, ?_, ?_⟩, trivial⟩
  · simp only [delivered_append_write, slice_zero, List.append_nil]; exact h4
  · simp only [writesOf_append_write_length]; rw [← h5, hfull, Nat.add_mul]; omega

theorem slice_memcpy_append (w : Nat → Byte) (l : Nat) (src : List Byte) :
    slice (memcpy w l src) 0 (l + src.length) = slice w 0 l ++ src := by
  apply List.ext_getElem
  · simp [slice_length]
  · intro i h1 h2
    simp only [slice_length] at h1
    by_cases hi : i < l
    · rw [List.getElem_append_left (by simpa [slice_length] using hi)]
      simp [slice, memcpy, hi]
    · rw [List.getElem_append_right (by simpa [slice_length] using hi)]
      simp only [slice, memcpy, List.getElem_map, List.getElem_range, Nat.zero_add, slice_length,
        List.length_map, List.length_range]
      have : l ≤ i ∧ i < l + src.length := ⟨by omega, h1⟩
      rw [if_pos this, List.getD_eq_getElem _ _ (by omega)]

theorem write_copy_WInv {β : Type} (K : Config) (s : Sys β) (buf data : List Byte)
    (left c : Nat) (hcap : K.IOBUF_BUFFERSIZE < 4294967296) (hsize : buf.length < 4294967296)
    (hle : left ≤ buf.length) (hc0 : 0 < c) (hcl : c ≤ left)
    (hroom : s.buffered.writebuf_len + c ≤ K.IOBUF_BUFFERSIZE)
    (hinv : WInv K s (data ++ buf.take (buf.length - left))) :
    WInv K (write_copy s buf buf.length left c) (data ++ buf.take (buf.length - (left - c))) ∧
      (write_copy s buf buf.length left c).buffered.writebuf_len
        = s.buffered.writebuf_len + c := by
  obtain ⟨h1, h2, h3, h4, h5⟩ := hinv
  have hoff : wrap32 ((buf.length : Int) - left) = buf.length - left :=
    wrap32_sub_cast _ _ hsize hle
  have hp : wrap32 ((s.buffered.writebuf_len : Int) + c) = s.buffered.writebuf_len + c :=
    wrap32_add_cast _ _ (by omega)
  have hl : wrap32 ((s.buffered.writebuf_len : Int) +
      wrap32 (((s.buffered.writebuf_len + c : Nat) : Int) - s.buffered.writebuf_len))
      = s.buffered.writebuf_len + c := by
    unfold wrap32; omega
  have hsrc : ((buf.drop (buf.length - left)).take c).length = c := by
    simp only [List.length_take, List.length_drop]; omega
  have htake : buf.take (buf.length - (left - c))
      = buf.take (buf.length - left) ++ (buf.drop (buf.length - left)).take c := by
    have : buf.length - (left - c) = (buf.length - left) + c := by omega
    rw [this, List.take_add]
  have hgt : s.buffered.writebuf_len + c > s.buffered.writebuf_len := by omega
  unfold write_copy WInv
  simp only [h2, hoff, hp, hl, hgt, if_true]
  refine ⟨⟨h1, trivial, hroom, ?_, ?_⟩, trivial⟩
  · have := slice_memcpy_append s.buffered.writebuf s.buffered.writebuf_len
      ((buf.drop (buf.length - left)).take c)
    rw [hsrc] at this
    rw [this, ← List.append_assoc, h4, htake, List.append_assoc]
  · rw [htake, ← List.append_assoc, List.length_append, ← h5, hsrc]; omega

theorem write_loop_accept {β : Type} (K : Config) (B : mzstream β)
    (hcap0 : 0 < K.IOBUF_BUFFERSIZE) (hcap : K.IOBUF_BUFFERSIZE < 4294967296)
    (hne : K.MZSTREAM_OK ≠ K.MZSTREAM_ERR) (hB : AcceptsAll B)
    (buf : List Byte) (hsize : buf.length < 4294967296) (data : List Byte) :
    ∀ (fuel : Nat) (s : Sys β) (left : Nat), left ≤ buf.length →
      WInv K s (data ++ buf.take (buf.length - left)) →
      2 * left + (if s.buffered.writebuf_len = K.IOBUF_BUFFERSIZE then 1 else 0) < fuel →
      ∃ s', write_loop K B fuel s buf buf.length left = some (toI32 buf.length, s') ∧
        WInv K s' (data ++ buf) ∧ (0 < left → 0 < s'.buffered.writebuf_len) ∧
        (left = 0 → s' = s) := by
  intro fuel
  induction fuel with
  | zero => intro s left _ _ h; omega
  | succ fuel ih =>
    intro s left hle hinv hfuel
    rcases Nat.eq_zero_or_pos left with h0 | hpos
    · subst h0
      refine ⟨s, ?_, ?_, by omega, fun _ => rfl⟩
      · simp only [write_loop, gt_iff_lt, lt_irrefl, if_false, Nat.cast_zero, sub_zero,
          wrap32_cast _ hsize]
      · simpa using hinv
    · obtain ⟨h1, h2, h3, h4, h5⟩ := hinv
      have hroom : wrap32 ((K.IOBUF_BUFFERSIZE : Int) -
          ((min s.buffered.writebuf_len s.buffered.writebuf_pos : Nat) : Int))
          = K.IOBUF_BUFFERSIZE - s.buffered.writebuf_len := by
        rw [h2, Nat.min_self]; exact wrap32_sub_cast _ _ hcap h3
      by_cases hfull : s.buffered.writebuf_len = K.IOBUF_BUFFERSIZE
      · -- the cache is full: flush, then go round again
        have hc : min left (wrap32 ((K.IOBUF_BUFFERSIZE : Int) -
            ((min s.buffered.writebuf_len s.buffered.writebuf_pos : Nat) : Int))) = 0 := by
          rw [hroom, hfull]; simp
        obtain ⟨hinv1, hlen1⟩ := WInv_flush K B s _ ⟨h1, h2, h3, h4, h5⟩ hfull hcap0
        have hfl := flush_accept K B s hB (by omega)
        rw [if_pos hfull] at hfuel
        obtain ⟨s', hs', hI, hP, _⟩ := ih (flush_ok_state B s) left hle hinv1
          (by rw [hlen1, if_neg (by omega)]; omega)
        refine ⟨s', ?_, hI, hP, fun h => by omega⟩
        rw [← hs']
        have hcap' : s.buffered.writebuf_len ≠ 0 := by omega
        simp only [write_loop, gt_iff_lt, hpos, if_true, hc, hfl, hne, if_false, hcap']
      · obtain ⟨c, hcdef⟩ : ∃ c, c = min left (K.IOBUF_BUFFERSIZE - s.buffered.writebuf_len) :=
          ⟨_, rfl⟩
        have hc0 : 0 < c := by omega
        have hcl : c ≤ left := by omega
        have hcr : s.buffered.writebuf_len + c ≤ K.IOBUF_BUFFERSIZE := by omega
        have hc : min left (wrap32 ((K.IOBUF_BUFFERSIZE : Int) -
            ((min s.buffered.writebuf_len s.buffered.writebuf_pos : Nat) : Int))) = c := by
          rw [hroom, hcdef]
        obtain ⟨hinv2, hlen2⟩ := write_copy_WInv K s buf data left c hcap hsize hle hc0 hcl hcr
          ⟨h1, h2, h3, h4, h5⟩
        rw [if_neg hfull] at hfuel
        obtain ⟨s', hs', hI, hP, hZ⟩ := ih (write_copy s buf buf.length left c) (left - c)
          (by omega) hinv2 (by split <;> omega)
        refine ⟨s', ?_, hI, ?_, fun h => by omega⟩
        · rw [← hs']
          have hc' : c ≠ 0 := by omega
          simp only [write_loop, gt_iff_lt, hpos, if_true, hc, hc', if_false,
            wrap32_sub_cast left c (by omega) hcl]
        · intro _
          rcases Nat.eq_zero_or_pos (left - c) with hz | hp
          · rw [hZ hz, hlen2]; omega
          · exact hP hp

/-! ## Writes followed by close over an accepting stream (C1, C2) -/

theorem RunInv_init {β : Type} (K : Config) (b0 : β) : RunInv K (Sys.init b0) [] := by
  refine ⟨⟨rfl, rfl, Nat.zero_le _, ?_, ?_⟩, fun h => absurd h (by simp)⟩
  · simp [Sys.init, delivered, writesOf, slice, mzstream_buffered_alloc]
  · simp [Sys.init, writesOf, mzstream_buffered_alloc]

theorem write_accept {β : Type} (K : Config) (B : mzstream β)
    (hcap0 : 0 < K.IOBUF_BUFFERSIZE) (hcap : K.IOBUF_BUFFERSIZE < 4294967296)
    (hne : K.MZSTREAM_OK ≠ K.MZSTREAM_ERR) (hB : AcceptsAll B)
    (s : Sys β) (data buf : List Byte) (hsize : buf.length < 4294967296)
    (hinv : RunInv K s data) :
    ∃ s', mzstream_buffered_write K B s buf = some (toI32 buf.length, s') ∧
      RunInv K s' (data ++ buf) := by
  obtain ⟨hw, hnz⟩ := hinv
  have hr : ¬ s.buffered.readbuf_len > 0 := by rw [hw.1]; exact lt_irrefl 0
  obtain ⟨s', hs', hI, hP, hZ⟩ := write_loop_accept K B hcap0 hcap hne hB buf hsize data
    (2 * buf.length + 2) s buf.length (le_refl _) (by simpa using hw) (by split <;> omega)
  refine ⟨s', ?_, hI, ?_⟩
  · unfold mzstream_buffered_write
    simp only [hr, if_false]
    exact hs'
  · intro hlen
    rcases Nat.eq_zero_or_pos buf.length with hz | hp
    · rw [hZ hz]
      apply hnz
      rw [List.length_append, hz] at hlen
      exact hlen
    · exact hP hp

theorem run_writes_accept {β : Type} (K : Config) (B : mzstream β)
    (hcap0 : 0 < K.IOBUF_BUFFERSIZE) (hcap : K.IOBUF_BUFFERSIZE < 4294967296)
    (hne : K.MZSTREAM_OK ≠ K.MZSTREAM_ERR) (hB : AcceptsAll B) :
    ∀ (bufs : List (List Byte)) (s : Sys β) (data : List Byte),
      (∀ buf ∈ bufs, buf.length < 4294967296) → RunInv K s data →
      ∃ s', run_writes K B s bufs = some (bufs.map (fun buf => toI32 buf.length), s') ∧
        RunInv K s' (data ++ bufs.flatten) := by
  intro bufs
  induction bufs with
  | nil => intro s data _ h; exact ⟨s, rfl, by simpa using h⟩
  | cons buf rest ih =>
    intro s data hsz hinv
    obtain ⟨s1, h1, hinv1⟩ := write_accept K B hcap0 hcap hne hB s data buf
      (hsz buf (List.mem_cons_self _ _)) hinv
    obtain ⟨s2, h2, hinv2⟩ := ih s1 (data ++ buf)
      (fun b hb => hsz b (List.mem_cons_of_mem _ hb)) hinv1
    refine ⟨s2, ?_, by simpa [List.append_assoc] using hinv2⟩
    simp only [run_writes, h1, h2, List.map_cons]

theorem flush_ok_state_calls {β : Type} (B : mzstream β) (s : Sys β) :
    (flush_ok_state B s).calls
      = if s.buffered.writebuf_len > 0 then
          s.calls ++ [Call.write (slice s.buffered.writebuf 0 s.buffered.writebuf_len)]
        else s.calls := by
  unfold flush_ok_state
  by_cases hl : s.buffered.writebuf_len > 0
  · simp only [hl, if_true]
  · simp only [hl, if_false]

theorem close_accept {β : Type} (K : Config) (B : mzstream β)
    (hcap0 : 0 < K.IOBUF_BUFFERSIZE) (hcap : K.IOBUF_BUFFERSIZE < 4294967296)
    (hB : AcceptsAll B) (s : Sys β) (data : List Byte) (hinv : RunInv K s data) :
    ∃ rc s', mzstream_buffered_close K B s = some (rc, s') ∧
      delivered s'.calls = data ∧
      (writesOf s'.calls).length
        = (data.length + K.IOBUF_BUFFERSIZE - 1) / K.IOBUF_BUFFERSIZE := by
  obtain ⟨⟨_, _, h3, h4, h5⟩, hnz⟩ := hinv
  have hfl := flush_accept K B s hB (by omega)
  refine ⟨_, _, by simp only [mzstream_buffered_close, hfl]; rfl, ?_, ?_⟩
  · simp only [delivered, writesOf_append, writesOf, List.append_nil, flush_ok_state_calls]
    rw [← h4]
    by_cases hl : s.buffered.writebuf_len > 0
    · rw [if_pos hl]
      simp only [delivered, writesOf_append, writesOf, List.flatten_append,
        List.flatten_cons, List.flatten_nil, List.append_nil]
    · rw [if_neg hl]
      have h0 : s.buffered.writebuf_len = 0 := by omega
      simp only [h0, slice_zero, List.append_nil, delivered]
  · simp only [writesOf_append, writesOf, List.append_nil, flush_ok_state_calls]
    by_cases hl : s.buffered.writebuf_len > 0
    · rw [if_pos hl, writesOf_append_write_length]
      symm
      apply Nat.div_eq_of_lt_le
      · rw [← h5, Nat.add_mul]; omega
      · rw [← h5, Nat.add_mul, Nat.add_mul]; omega
    · rw [if_neg hl]
      have h0 : s.buffered.writebuf_len = 0 := by omega
      have hd : data.length = 0 := by
        by_contra hne0
        have := hnz (Nat.pos_of_ne_zero hne0)
        omega
      have hn : (writesOf s.calls).length = 0 := by
        rw [hd, h0, Nat.add_zero] at h5
        rcases Nat.mul_eq_zero.mp h5 with h | h
        · exact h
        · omega
      rw [hn, hd]
      symm
      apply Nat.div_eq_of_lt
      omega

theorem write_then_close_accept {β : Type} (K : Config) (B : mzstream β) (b0 : β)
    (bufs : List (List Byte))
    (hcap0 : 0 < K.IOBUF_BUFFERSIZE) (hcap : K.IOBUF_BUFFERSIZE < 4294967296)
    (hne : K.MZSTREAM_OK ≠ K.MZSTREAM_ERR) (hB : AcceptsAll B)
    (hsz : ∀ buf ∈ bufs, buf.length < 4294967296) :
    ∃ rc s', write_then_close K B b0 bufs
        = some (bufs.map (fun buf => toI32 buf.length), rc, s') ∧
      delivered s'.calls = bufs.flatten ∧
      (writesOf s'.calls).length
        = (bufs.flatten.length + K.IOBUF_BUFFERSIZE - 1) / K.IOBUF_BUFFERSIZE := by
  obtain ⟨s1, h1, hinv1⟩ := run_writes_accept K B hcap0 hcap hne hB bufs (Sys.init b0) []
    hsz (RunInv_init K b0)
  obtain ⟨rc, s2, h2, hd, hn⟩ := close_accept K B hcap0 hcap hB s1 _ hinv1
  refine ⟨rc, s2, ?_, by simpa using hd, by simpa using hn⟩
  simp only [write_then_close, h1, h2]

theorem hugeBuf_length : hugeBuf.length = 2147483648 :=
  List.length_replicate _ _

theorem memStream_acceptsAll (K : Config) : AcceptsAll (memStream K) := by
  intro b d; rfl

theorem ceil_div_self (c : Nat) (h : 0 < c) : (c + c - 1) / c = 1 :=
  Nat.div_eq_of_lt_le (by omega) (by omega)

theorem ceil_div_succ (c : Nat) (h : 0 < c) : (c + 1 + c - 1) / c = 2 :=
  Nat.div_eq_of_lt_le (by omega) (by omega)

/-- C1 (amended): for every capacity `0 < C < 2^32`, on a fresh adapter over a stream whose
write accepts all bytes offered, any run of writes (sizes being `uint32_t` values) followed
by close returns, for each write, its size converted to `int32_t` - the size itself whenever
all sizes are below `2^31` - and the bytes handed to the stream, in order, are exactly the
concatenation of the written buffers. -/
theorem C1_write_then_close_delivers {β : Type} (K : Config) (B : mzstream β) (b0 : β)
    (bufs : List (List Byte))
    (hcap0 : 0 < K.IOBUF_BUFFERSIZE) (hcap : K.IOBUF_BUFFERSIZE < 4294967296)
    (hne : K.MZSTREAM_OK ≠ K.MZSTREAM_ERR) (hB : AcceptsAll B)
    (hsz : ∀ buf ∈ bufs, buf.length < 4294967296) :
    ∃ rs rc s', write_then_close K B b0 bufs = some (rs, rc, s') ∧
      rs = bufs.map (fun buf => toI32 buf.length) ∧
      ((∀ buf ∈ bufs, buf.length < 2147483648) → rs = bufs.map (fun buf => (buf.length : Int))) ∧
      delivered s'.calls = bufs.flatten := by
  obtain ⟨rc, s', h, hd, _⟩ := write_then_close_accept K B b0 bufs hcap0 hcap hne hB hsz
  refine ⟨_, rc, s', h, rfl, ?_, hd⟩
  intro hsmall
  apply List.map_congr_left
  intro buf hb
  have := hsmall buf hb
  unfold toI32
  omega

/-- C1, the capacity-4 scenario: write "AB", write "CDE", close; the writes return 2 and 3
and the stream receives "ABCDE". -/
theorem C1_write_then_close_delivers_witness :
    (0 < cfg4.IOBUF_BUFFERSIZE ∧ cfg4.IOBUF_BUFFERSIZE < 4294967296 ∧
      cfg4.MZSTREAM_OK ≠ cfg4.MZSTREAM_ERR ∧ AcceptsAll (memStream cfg4) ∧
      ∀ buf ∈ scenarioBufs, buf.length < 4294967296) ∧
    (∃ rs rc s', write_then_close cfg4 (memStream cfg4) emptyStore scenarioBufs
        = some (rs, rc, s') ∧
      rs = scenarioBufs.map (fun buf => toI32 buf.length) ∧
      ((∀ buf ∈ scenarioBufs, buf.length < 2147483648) →
        rs = scenarioBufs.map (fun buf => (buf.length : Int))) ∧
      delivered s'.calls = scenarioBufs.flatten) ∧
    (write_then_close cfg4 (memStream cfg4) emptyStore scenarioBufs).map
        (fun r => (r.1, delivered r.2.2.calls)) = some ([2, 3], [65, 66, 67, 68, 69]) :=
  ⟨⟨by decide, by decide, by decide, memStream_acceptsAll cfg4, by decide⟩,
    C1_write_then_close_delivers cfg4 (memStream cfg4) emptyStore scenarioBufs
      (by decide) (by decide) (by decide) (memStream_acceptsAll cfg4) (by decide),
    by decide⟩

/-- C1 fails as stated in two places.  With capacity `2^32` a one-byte write returns 0 and
nothing reaches the stream, also after close; and with capacity 4 a single write of `2^31`
bytes (`hugeBuf`) returns `-2^31`, not its size. -/
theorem C1_counterexample :
    (write_then_close cfgWide (memStream cfgWide) emptyStore [[65]]).map
        (fun r => (r.1, delivered r.2.2.calls)) = some ([0], []) ∧
      ∃ rc s', write_then_close cfg4 (memStream cfg4) emptyStore [hugeBuf]
          = some ([-2147483648], rc, s') := by
  refine ⟨by decide, ?_⟩
  obtain ⟨rc, s', h, _, _⟩ := write_then_close_accept cfg4 (memStream cfg4) emptyStore
    [hugeBuf] (by decide) (by decide) (by decide) (memStream_acceptsAll cfg4)
    (by intro buf hb; rw [List.mem_singleton] at hb; rw [hb, hugeBuf_length]; decide)
  refine ⟨rc, s', ?_⟩
  rw [h, List.map_cons, List.map_nil, hugeBuf_length]
  rfl

/-- C2 (amended): for every capacity `0 < C < 2^32`, on a fresh adapter over a stream whose
write accepts all bytes offered, a run of writes totalling `N` bytes followed by close makes
exactly `ceil (N / C)` write calls to the stream: one when `N = C`, two when `N = C + 1`. -/
theorem C2_flush_batching {β : Type} (K : Config) (B : mzstream β) (b0 : β)
    (bufs : List (List Byte))
    (hcap0 : 0 < K.IOBUF_BUFFERSIZE) (hcap : K.IOBUF_BUFFERSIZE < 4294967296)
    (hne : K.MZSTREAM_OK ≠ K.MZSTREAM_ERR) (hB : AcceptsAll B)
    (hsz : ∀ buf ∈ bufs, buf.length < 4294967296) :
    ∃ rs rc s', write_then_close K B b0 bufs = some (rs, rc, s') ∧
      (writesOf s'.calls).length
        = ((bufs.map List.length).sum + K.IOBUF_BUFFERSIZE - 1) / K.IOBUF_BUFFERSIZE ∧
      ((bufs.map List.length).sum = K.IOBUF_BUFFERSIZE → (writesOf s'.calls).length = 1) ∧
      ((bufs.map List.length).sum = K.IOBUF_BUFFERSIZE + 1 →
        (writesOf s'.calls).length = 2) := by
  obtain ⟨rc, s', h, _, hn⟩ := write_then_close_accept K B b0 bufs hcap0 hcap hne hB hsz
  rw [List.length_flatten] at hn
  refine ⟨_, rc, s', h, hn, ?_, ?_⟩
  · intro hN; rw [hn, hN]; exact ceil_div_self _ hcap0
  · intro hN; rw [hn, hN]; exact ceil_div_succ _ hcap0

/-- C2, the capacity-4 scenario: "AB" then "CDE" then close is two write calls, the first of
4 bytes and the second of 1 byte. -/
theorem C2_flush_batching_witness :
    (0 < cfg4.IOBUF_BUFFERSIZE ∧ cfg4.IOBUF_BUFFERSIZE < 4294967296 ∧
      cfg4.MZSTREAM_OK ≠ cfg4.MZSTREAM_ERR ∧ AcceptsAll (memStream cfg4) ∧
      ∀ buf ∈ scenarioBufs, buf.length < 4294967296) ∧
    (∃ rs rc s', write_then_close cfg4 (memStream cfg4) emptyStore scenarioBufs
        = some (rs, rc, s') ∧
      (writesOf s'.calls).length
        = ((scenarioBufs.map List.length).sum + cfg4.IOBUF_BUFFERSIZE - 1)
            / cfg4.IOBUF_BUFFERSIZE ∧
      ((scenarioBufs.map List.length).sum = cfg4.IOBUF_BUFFERSIZE →
        (writesOf s'.calls).length = 1) ∧
      ((scenarioBufs.map List.length).sum = cfg4.IOBUF_BUFFERSIZE + 1 →
        (writesOf s'.calls).length = 2)) ∧
    (write_then_close cfg4 (memStream cfg4) emptyStore scenarioBufs).map
        (fun r => writesOf r.2.2.calls) = some [[65, 66, 67, 68], [69]] :=
  ⟨⟨by decide, by decide, by decide, memStream_acceptsAll cfg4, by decide⟩,
    C2_flush_batching cfg4 (memStream cfg4) emptyStore scenarioBufs
      (by decide) (by decide) (by decide) (memStream_acceptsAll cfg4) (by decide),
    by decide⟩

/-- C2 fails as stated for capacity `2^32`: a one-byte write followed by close makes no write
call to the stream at all, where `ceil (1 / C) = 1`. -/
theorem C2_counterexample :
    (write_then_close cfgWide (memStream cfgWide) emptyStore [[65]]).map
        (fun r => (writesOf r.2.2.calls).length) = some 0 ∧
      (1 + cfgWide.IOBUF_BUFFERSIZE - 1) / cfgWide.IOBUF_BUFFERSIZE = 1 := by
  decide

/-! ## Reads (C3, C4, C5) -/

/-- C3 fails on the code.  Capacity 4, empty in-memory store: after writing "AB" and seeking
to 0 (status `MZSTREAM_OK`), a read of 2 bytes returns 0 and copies nothing; after writing
"ABCDE" the seek to 0 itself returns `MZSTREAM_ERR`, as it does after no write at all. -/
theorem C3_round_trip_fails :
    round_trip cfg4 (memStream cfg4) emptyStore [[65, 66]] [2] = some (0, [0], []) ∧
    round_trip cfg4 (memStream cfg4) emptyStore [[65, 66, 67, 68, 69]] [5]
      = some (-1, [0], []) ∧
    round_trip cfg4 (memStream cfg4) emptyStore [] [] = some (-1, [], []) := by
  decide

theorem exists_of_ite_some {α γ δ : Type} (c : Prop) [Decidable c] (a : α) (b : γ)
    (x y : δ) : ∃ z, (if c then some (a, b, x) else some (a, b, y)) = some (a, b, z) := by
  split
  · exact ⟨x, rfl⟩
  · exact ⟨y, rfl⟩

/-- C4 fails on the code: whatever the underlying stream does, a read on an adapter whose
read cache is empty (`readbuf_len = 0`, as after allocation) returns 0 and copies nothing to
the caller, for every requested size. -/
theorem C4_read_returns_zero {β : Type} (K : Config) (B : mzstream β) (s : Sys β)
    (size : Nat) (h : s.buffered.readbuf_len = 0) :
    ∃ s', mzstream_buffered_read K B s size = some (0, [], s') := by
  have hz : toI32 (wrap32 ((size : Int) - size)) = 0 := by
    rw [sub_self]; rfl
  unfold mzstream_buffered_read
  rcases Nat.eq_zero_or_pos size with h0 | hpos
  · subst h0
    exact ⟨s, by simp only [read_loop, gt_iff_lt, lt_irrefl, if_false]; rfl⟩
  · simp only [read_loop, gt_iff_lt, hpos, if_true, h, true_or, hz]
    apply exists_of_ite_some

/-- C4 at capacity 4 over the store "HELLOWORLD": a read of 3 bytes returns 0 bytes, although
the stream delivered the 4 bytes asked of it (they sit in `readbuf`, with `readbuf_len`
still 0). -/
theorem C4_read_returns_zero_witness :
    (Sys.init helloStore).buffered.readbuf_len = 0 ∧
    (∃ s', mzstream_buffered_read cfg4 (memStream cfg4) (Sys.init helloStore) 3
        = some (0, [], s')) ∧
    (mzstream_buffered_read cfg4 (memStream cfg4) (Sys.init helloStore) 3).map
        (fun r => (r.1, r.2.1, r.2.2.calls, r.2.2.buffered.readbuf_len,
          slice r.2.2.buffered.readbuf 0 4))
      = some (0, [], [Call.read 4], 0, [72, 69, 76, 76]) :=
  ⟨rfl, C4_read_returns_zero cfg4 (memStream cfg4) (Sys.init helloStore) 3 rfl, by decide⟩

/-- C5 fails on the code.  Capacity 4, store "HEL": a read of 5 bytes asks the stream for 4,
gets 3, and returns 0 with nothing copied and `readbuf_len` still 0. -/
theorem C5_short_read_returns_zero :
    (mzstream_buffered_read cfg4 (memStream cfg4) (Sys.init helStore) 5).map
        (fun r => (r.1, r.2.1, r.2.2.calls, r.2.2.buffered.readbuf_len))
      = some (0, [], [Call.read 4], 0) := by
  decide

/-! ## Seeks (C6, C7, C8) -/

/-- C6 fails on the code.  Capacity 4, "AB" in the write cache at position 0: a seek to
offset 1 (inside the write window) moves the write cursor to 1 and then calls the seek of
the underlying stream with `(1, MZSTREAM_SEEK_SET)`, moving its cursor to 1. -/
theorem C6_in_buffer_seek_calls_backend :
    (mzstream_buffered_seek cfg4 (memStream cfg4) cachedAB 1 Origin.MZSTREAM_SEEK_SET).map
        (fun r => (r.1, r.2.calls, r.2.buffered.writebuf_pos, r.2.base.cursor))
      = some (0, [Call.seek 1 Origin.MZSTREAM_SEEK_SET], 1, 1) := by
  decide

/-- C7 fails on the code.  Capacity 4, fresh adapter over the empty store: a seek to offset 5
(outside both windows) sets `position` to 5 and returns `MZSTREAM_ERR` without any call to
the underlying stream, whose cursor stays at 0. -/
theorem C7_out_of_buffer_seek_fails :
    (mzstream_buffered_seek cfg4 (memStream cfg4) (Sys.init emptyStore) 5
        Origin.MZSTREAM_SEEK_SET).map
        (fun r => (r.1, r.2.calls, r.2.buffered.position, r.2.base.cursor))
      = some (-1, [], 5, 0) := by
  decide

/-- C8: with a non-empty write cache, `mzstream_buffered_seekinternal (offset,
MZSTREAM_SEEK_END)` sets `writebuf_pos = writebuf_len`, changes nothing else and returns
`MZSTREAM_OK`; with an empty write cache, `mzstream_buffered_seek (offset,
MZSTREAM_SEEK_END)` returns `MZSTREAM_ERR`, leaves both caches empty and makes no call to
the underlying stream. -/
theorem C8_seek_end {β : Type} (K : Config) (B : mzstream β) (s : Sys β) (offset : Nat) :
    (s.buffered.writebuf_len > 0 →
      mzstream_buffered_seekinternal K B s offset Origin.MZSTREAM_SEEK_END
        = some (K.MZSTREAM_OK,
            { s with buffered :=
                { s.buffered with writebuf_pos := s.buffered.writebuf_len } })) ∧
    (s.buffered.writebuf_len = 0 →
      ∃ s', mzstream_buffered_seek K B s offset Origin.MZSTREAM_SEEK_END
          = some (K.MZSTREAM_ERR, s') ∧
        s'.buffered.readbuf_len = 0 ∧ s'.buffered.readbuf_pos = 0 ∧
        s'.buffered.writebuf_len = 0 ∧ s'.buffered.writebuf_pos = 0 ∧
        s'.calls = s.calls ∧ s'.base = s.base) := by
  constructor
  · intro h
    simp only [mzstream_buffered_seekinternal, h, if_true]
  · intro h
    have h' : ¬ s.buffered.writebuf_len > 0 := by omega
    refine ⟨{ s with buffered := (seekinternal_tail K s.buffered).2 }, ?_,
      rfl, rfl, rfl, rfl, rfl, rfl⟩
    simp only [mzstream_buffered_seek, mzstream_buffered_seekinternal, h', if_false,
      seekinternal_tail, if_true]

/-- C8 at capacity 4: with "AB" cached the write cursor goes to 2; on the fresh adapter the
seek fails with `MZSTREAM_ERR` and an empty call log. -/
theorem C8_seek_end_witness :
    (cachedABCursor1.buffered.writebuf_len > 0 ∧
      mzstream_buffered_seekinternal cfg4 (memStream cfg4) cachedABCursor1 7
          Origin.MZSTREAM_SEEK_END
        = some (cfg4.MZSTREAM_OK,
            { cachedABCursor1 with buffered :=
                { cachedABCursor1.buffered with
                    writebuf_pos := cachedABCursor1.buffered.writebuf_len } })) ∧
    ((Sys.init emptyStore).buffered.writebuf_len = 0 ∧
      ∃ s', mzstream_buffered_seek cfg4 (memStream cfg4) (Sys.init emptyStore) 7
          Origin.MZSTREAM_SEEK_END = some (cfg4.MZSTREAM_ERR, s') ∧
        s'.buffered.readbuf_len = 0 ∧ s'.buffered.readbuf_pos = 0 ∧
        s'.buffered.writebuf_len = 0 ∧ s'.buffered.writebuf_pos = 0 ∧
        s'.calls = (Sys.init emptyStore).calls ∧ s'.base = (Sys.init emptyStore).base) :=
  ⟨⟨by decide,
      (C8_seek_end cfg4 (memStream cfg4) cachedABCursor1 7).1 (by decide)⟩,
    ⟨rfl, (C8_seek_end cfg4 (memStream cfg4) (Sys.init emptyStore) 7).2 rfl⟩⟩

/-! ## Tell (C9, C10) -/

/-- C9 (amended): in every state satisfying the cache invariant (`readbuf_len` being a
`uint32_t` value), `mzstream_buffered_tell` returns `P - (readbuf_len - readbuf_pos) + writebuf_pos` as an
`int64_t`, where `P` is what the tell of the underlying stream returns: the unread
read-cache bytes are subtracted and the write cursor `writebuf_pos` - not the filled length
`writebuf_len` - is added.  When the sum lies in the `int64_t` range it is returned as is. -/
theorem C9_tell_formula {β : Type} (K : Config) (B : mzstream β) (s : Sys β)
    (hlen : s.buffered.readbuf_len < 4294967296) (hinv : CacheInv K s.buffered) :
    (mzstream_buffered_tell B s).1
        = toI64 ((B.tell s.base).1 - ((s.buffered.readbuf_len : Int) - s.buffered.readbuf_pos)
            + s.buffered.writebuf_pos) ∧
      (-9223372036854775808 ≤ (B.tell s.base).1
            - ((s.buffered.readbuf_len : Int) - s.buffered.readbuf_pos)
            + s.buffered.writebuf_pos →
        (B.tell s.base).1 - ((s.buffered.readbuf_len : Int) - s.buffered.readbuf_pos)
            + s.buffered.writebuf_pos < 9223372036854775808 →
        (mzstream_buffered_tell B s).1
          = (B.tell s.base).1 - ((s.buffered.readbuf_len : Int) - s.buffered.readbuf_pos)
              + s.buffered.writebuf_pos) := by
  obtain ⟨h1, h2, h3, h4⟩ := hinv
  have key : (mzstream_buffered_tell B s).1
      = toI64 ((B.tell s.base).1 - ((s.buffered.readbuf_len : Int) - s.buffered.readbuf_pos)
          + s.buffered.writebuf_pos) := by
    simp only [mzstream_buffered_tell, mzstream_buffered_tellinternal]
    generalize (B.tell s.base).1 = P
    by_cases hr : s.buffered.readbuf_len > 0 <;> by_cases hw : s.buffered.writebuf_len > 0 <;>
      simp only [hr, hw, if_true, if_false] <;> unfold toI64 wrap64 <;>
      (try unfold wrap32) <;> omega
  refine ⟨key, fun hlo hhi => ?_⟩
  rw [key]
  unfold toI64
  omega

/-- C9 at capacity 4: "AB" cached with the write cursor at 1 over a stream at offset 0;
tell returns `0 - (0 - 0) + 1`. -/
theorem C9_tell_formula_witness :
    (cachedABCursor1.buffered.readbuf_len < 4294967296 ∧
      CacheInv cfg4 cachedABCursor1.buffered) ∧
    ((mzstream_buffered_tell (memStream cfg4) cachedABCursor1).1
        = toI64 (((memStream cfg4).tell cachedABCursor1.base).1
            - ((cachedABCursor1.buffered.readbuf_len : Int)
                - cachedABCursor1.buffered.readbuf_pos)
            + cachedABCursor1.buffered.writebuf_pos) ∧
      (-9223372036854775808 ≤ ((memStream cfg4).tell cachedABCursor1.base).1
            - ((cachedABCursor1.buffered.readbuf_len : Int)
                - cachedABCursor1.buffered.readbuf_pos)
            + cachedABCursor1.buffered.writebuf_pos →
        ((memStream cfg4).tell cachedABCursor1.base).1
            - ((cachedABCursor1.buffered.readbuf_len : Int)
                - cachedABCursor1.buffered.readbuf_pos)
            + cachedABCursor1.buffered.writebuf_pos < 9223372036854775808 →
        (mzstream_buffered_tell (memStream cfg4) cachedABCursor1).1
          = ((memStream cfg4).tell cachedABCursor1.base).1
              - ((cachedABCursor1.buffered.readbuf_len : Int)
                  - cachedABCursor1.buffered.readbuf_pos)
              + cachedABCursor1.buffered.writebuf_pos)) ∧
    (mzstream_buffered_tell (memStream cfg4) cachedABCursor1).1 = 1 :=
  ⟨⟨by decide, by decide⟩,
    C9_tell_formula cfg4 (memStream cfg4) cachedABCursor1 (by decide) (by decide),
    by decide⟩

/-- C9 fails as stated.  Capacity 4, "AB" cached (`writebuf_len = 2`) with the write cursor
at 1, stream at offset 0: the state satisfies the cache invariant, tell returns 1, and the
claimed `P - (readbuf_len - readbuf_pos) + writebuf_len` is 2. -/
theorem C9_counterexample :
    CacheInv cfg4 cachedABCursor1.buffered ∧
    (mzstream_buffered_tell (memStream cfg4) cachedABCursor1).1 = 1 ∧
    ((memStream cfg4).tell cachedABCursor1.base).1
        - ((cachedABCursor1.buffered.readbuf_len : Int)
            - cachedABCursor1.buffered.readbuf_pos)
        + cachedABCursor1.buffered.writebuf_len = 2 := by
  decide

/-- C10 fails on the code.  Capacity 4, store "HELLOWORLD": after a read of 3 bytes the
adapter tells 4 where the store used directly tells 3; on the empty store, after a write of
"AB" and a seek to 5 the adapter tells 2 where the store used directly tells 5. -/
theorem C10_tell_disagrees :
    buffered_tell_after cfg4 (memStream cfg4) helloStore [Op.read 3] = some 4 ∧
    direct_tell_after cfg4 helloStore [Op.read 3] = 3 ∧
    buffered_tell_after cfg4 (memStream cfg4) emptyStore
        [Op.write [65, 66], Op.seek 5 Origin.MZSTREAM_SEEK_SET] = some 2 ∧
    direct_tell_after cfg4 emptyStore
        [Op.write [65, 66], Op.seek 5 Origin.MZSTREAM_SEEK_SET] = 5 := by
  decide

/-! ## Flush in closed form (C12, C13, C14, C15, C18) -/

theorem wrap32_zero : wrap32 0 = 0 := rfl

theorem wrap32_lt (x : Int) : wrap32 x < 4294967296 := by
  unfold wrap32; omega

theorem wrap64_lt (x : Int) : wrap64 x < 18446744073709551616 := by
  unfold wrap64; omega

theorem flush_eq {β : Type} (K : Config) (B : mzstream β) (s : Sys β) :
    mzstream_buffered_flush K B s = some (flush_result K B s) := by
  unfold mzstream_buffered_flush flush_result
  rcases Nat.eq_zero_or_pos s.buffered.writebuf_len with h0 | hpos
  · simp [h0, flush_loop]
  · have hne : s.buffered.writebuf_len ≠ 0 := by omega
    have hf : s.buffered.writebuf_len + 1 = (s.buffered.writebuf_len - 1) + 1 + 1 := by omega
    rw [hf]
    have h1 : wrap32 ((s.buffered.writebuf_len : Int) - s.buffered.writebuf_len) = 0 := by
      rw [sub_self]; rfl
    simp only [flush_loop, gt_iff_lt, hpos, if_true, h1, hne, if_false]
    by_cases hw : wrap32 (B.write s.base
        (slice s.buffered.writebuf 0 s.buffered.writebuf_len)).1 = s.buffered.writebuf_len
    · have h2 : wrap32 (((0 : Nat) : Int) + (s.buffered.writebuf_len : Nat))
          = s.buffered.writebuf_len := by
        have := wrap32_lt (B.write s.base
          (slice s.buffered.writebuf 0 s.buffered.writebuf_len)).1
        rw [hw] at this
        unfold wrap32; omega
      simp only [hw, ne_eq, not_true_eq_false, if_false, h1, lt_irrefl, h2]
    · simp only [hw, ne_eq, not_false_eq_true, if_true]

/-- C12 fails on the code.  Capacity 4, "ABCD" in the write cache, over a stream whose first
write takes 2 bytes and whose later writes take everything: `mzstream_buffered_flush` makes
one write call offering "ABCD", returns `MZSTREAM_ERR` with `*written = 0`, leaves the cache
as it was (`writebuf_len = writebuf_pos = 4`, `position = 0`) and the stream holding "AB". -/
theorem C12_flush_does_not_retry :
    (mzstream_buffered_flush cfg4 (shortStream cfg4) (cachedABCD (emptyStore, 0))).map
        (fun r => (r.1, r.2.1, r.2.2.calls)) = some (-1, 0, [Call.write [65, 66, 67, 68]]) ∧
    (mzstream_buffered_flush cfg4 (shortStream cfg4) (cachedABCD (emptyStore, 0))).map
        (fun r => (r.2.2.buffered.writebuf_len, r.2.2.buffered.writebuf_pos,
          r.2.2.buffered.position)) = some (4, 4, 0) ∧
    (mzstream_buffered_flush cfg4 (shortStream cfg4) (cachedABCD (emptyStore, 0))).map
        (fun r => r.2.2.base.1.data) = some [65, 66] := by
  decide

/-- C13 fails on the code.  Capacity 4, full write cache "ABCD", over a stream whose write
returns 0: a write of 1 byte triggers a flush that transfers nothing, and
`mzstream_buffered_write` returns `MZSTREAM_ERR` (-1), not 0; the cache stays full. -/
theorem C13_write_returns_err :
    (mzstream_buffered_write cfg4 (brokenStream cfg4 0) (cachedABCD emptyStore) [69]).map
        (fun r => (r.1, r.2.calls, r.2.buffered.writebuf_len))
      = some (-1, [Call.write [65, 66, 67, 68]], 4) := by
  decide

/-- C15 fails on the code.  Capacity 4, "AB" pending in the write cache, over a stream whose
write fails (returns -1, stores nothing) and whose close succeeds: `mzstream_buffered_close`
returns `MZSTREAM_OK` (0) and the stream holds nothing. -/
theorem C15_close_hides_failed_flush :
    (mzstream_buffered_close cfg4 (brokenStream cfg4 (-1)) cachedAB).map
        (fun r => (r.1, r.2.calls, r.2.base))
      = some (0, [Call.write [65, 66], Call.close], { data := [], cursor := 0 }) := by
  decide

theorem flush_taken {β : Type} (K : Config) (B : mzstream β) (s : Sys β)
    (hw : 0 < s.buffered.writebuf_len →
      wrap32 (B.write s.base (slice s.buffered.writebuf 0 s.buffered.writebuf_len)).1
        = s.buffered.writebuf_len) :
    mzstream_buffered_flush K B s
      = some (K.MZSTREAM_OK, s.buffered.writebuf_len, flush_ok_state B s) := by
  rw [flush_eq]
  unfold flush_result flush_ok_state
  rcases Nat.eq_zero_or_pos s.buffered.writebuf_len with h0 | hpos
  · simp only [h0, if_true, gt_iff_lt, lt_irrefl, if_false]
  · have hne : s.buffered.writebuf_len ≠ 0 := by omega
    simp only [hne, if_false, hw hpos, ne_eq, not_true_eq_false, gt_iff_lt, hpos, if_true]

/-- C18 (amended): in every state whose `writebuf_len = n` and `position` are values of their
C types (`uint32_t`, `uint64_t`), if the write that `mzstream_buffered_flush` issues - it
issues one when `n > 0` - is accepted in full, flush returns `MZSTREAM_OK`, reports `*written = n`, sets
`writebuf_len = writebuf_pos = 0`, sets `position` to the old `position + n` reduced modulo
`2^64` (the plain sum when that is below `2^64`), hands the stream exactly the first `n`
bytes of the write buffer in one call, and leaves the read cache fields unchanged; when
`n = 0` it makes no call. -/
theorem C18_flush_postcondition {β : Type} (K : Config) (B : mzstream β) (s : Sys β)
    (hlen : s.buffered.writebuf_len < 4294967296)
    (hposn : s.buffered.position < 18446744073709551616)
    (hacc : 0 < s.buffered.writebuf_len →
      (B.write s.base (slice s.buffered.writebuf 0 s.buffered.writebuf_len)).1
        = toI32 s.buffered.writebuf_len) :
    ∃ s', mzstream_buffered_flush K B s = some (K.MZSTREAM_OK, s.buffered.writebuf_len, s') ∧
      s'.buffered.writebuf_len = 0 ∧ s'.buffered.writebuf_pos = 0 ∧
      s'.buffered.position
        = (s.buffered.position + s.buffered.writebuf_len) % 18446744073709551616 ∧
      (s.buffered.position + s.buffered.writebuf_len < 18446744073709551616 →
        s'.buffered.position = s.buffered.position + s.buffered.writebuf_len) ∧
      (0 < s.buffered.writebuf_len →
        s'.calls = s.calls
          ++ [Call.write (slice s.buffered.writebuf 0 s.buffered.writebuf_len)]) ∧
      (s.buffered.writebuf_len = 0 → s'.calls = s.calls) ∧
      s'.buffered.readbuf = s.buffered.readbuf ∧
      s'.buffered.readbuf_len = s.buffered.readbuf_len ∧
      s'.buffered.readbuf_pos = s.buffered.readbuf_pos ∧
      s'.buffered.readbuf_hits = s.buffered.readbuf_hits ∧
      s'.buffered.readbuf_misses = s.buffered.readbuf_misses := by
  refine ⟨flush_ok_state B s,
    flush_taken K B s (fun hp => by rw [hacc hp]; exact wrap32_toI32_cast _ hlen), ?_⟩
  unfold flush_ok_state
  rcases Nat.eq_zero_or_pos s.buffered.writebuf_len with h0 | hpos
  · simp only [h0, gt_iff_lt, lt_irrefl, if_false, Nat.add_zero, true_and, if_true,
      forall_const, false_implies, implies_true, and_true]
    omega
  · have hne : s.buffered.writebuf_len ≠ 0 := by omega
    simp only [gt_iff_lt, hpos, if_true, true_and, forall_const, hne, false_implies,
      and_true]
    unfold wrap64
    omega

/-- C18 at capacity 4: "AB" cached at position 0 over the empty in-memory store; the flush
returns `MZSTREAM_OK`, reports 2, and makes the single call `write "AB"`. -/
theorem C18_flush_postcondition_witness :
    (cachedAB.buffered.writebuf_len < 4294967296 ∧
      cachedAB.buffered.position < 18446744073709551616 ∧
      ((memStream cfg4).write cachedAB.base
          (slice cachedAB.buffered.writebuf 0 cachedAB.buffered.writebuf_len)).1
        = toI32 cachedAB.buffered.writebuf_len) ∧
    ∃ s', mzstream_buffered_flush cfg4 (memStream cfg4) cachedAB
        = some (cfg4.MZSTREAM_OK, 2, s') ∧
      s'.buffered.writebuf_len = 0 ∧ s'.buffered.writebuf_pos = 0 ∧
      s'.buffered.position = 2 ∧ s'.calls = [Call.write [65, 66]] := by
  refine ⟨⟨by decide, by decide, by decide⟩, ?_⟩
  obtain ⟨s', h, h1, h2, _, h4, h5, _⟩ :=
    C18_flush_postcondition cfg4 (memStream cfg4) cachedAB (by decide) (by decide)
      (fun _ => by decide)
  exact ⟨s', h, h1, h2, h4 (by decide), h5 (by decide)⟩

/-- C18 fails as stated when `position + n` does not fit `uint64_t`.  Capacity 4, "AB" cached
with `position = 2^64 - 1`: the state satisfies the cache invariant, the flush succeeds and
reports 2, and `position` becomes 1, where the old `position + n` is `2^64 + 1`. -/
theorem C18_counterexample :
    CacheInv cfg4 cachedABAtTop.buffered ∧
    (mzstream_buffered_flush cfg4 (memStream cfg4) cachedABAtTop).map
        (fun r => (r.1, r.2.1, r.2.2.buffered.position)) = some (0, 2, 1) ∧
    cachedABAtTop.buffered.position + cachedABAtTop.buffered.writebuf_len
      = 18446744073709551617 := by
  decide

/-- C14 (amended): for every adapter state, every stream and every seek request, whenever
`mzstream_buffered_seek` returns `MZSTREAM_ERR` although no call to the stream failed - the
write of its flush is taken in full when the write cache holds bytes, and the seek of the
stream does not return `MZSTREAM_ERR` for the request - both caches are empty afterwards:
`readbuf_len = readbuf_pos = writebuf_len = writebuf_pos = 0`. -/
theorem C14_failure_and_caches {β : Type} (K : Config) (B : mzstream β) (s : Sys β)
    (offset : Nat) (origin : Origin) (s' : Sys β)
    (hne : K.MZSTREAM_OK ≠ K.MZSTREAM_ERR)
    (hflush : 0 < s.buffered.writebuf_len →
      wrap32 (B.write s.base (slice s.buffered.writebuf 0 s.buffered.writebuf_len)).1
        = s.buffered.writebuf_len)
    (hseek : (B.seek s.base offset origin).1 ≠ K.MZSTREAM_ERR)
    (h : mzstream_buffered_seek K B s offset origin = some (K.MZSTREAM_ERR, s')) :
    s'.buffered.readbuf_len = 0 ∧ s'.buffered.readbuf_pos = 0 ∧
    s'.buffered.writebuf_len = 0 ∧ s'.buffered.writebuf_pos = 0 := by
  unfold mzstream_buffered_seek at h
  cases origin with
  | MZSTREAM_SEEK_SET =>
    simp only [mzstream_buffered_seekinternal, flush_taken K B s hflush, hne, if_false,
      seekinternal_tail] at h
    split_ifs at h with h1 h2
    · simp only [hne, if_false, Option.some.injEq, Prod.mk.injEq] at h
      exact absurd h.1 hseek
    · simp only [hne, if_false, Option.some.injEq, Prod.mk.injEq] at h
      exact absurd h.1 hseek
    · simp only [if_true, Option.some.injEq, Prod.mk.injEq, true_and] at h
      rw [← h]
      exact ⟨rfl, rfl, rfl, rfl⟩
  | MZSTREAM_SEEK_CUR =>
    simp only [mzstream_buffered_seekinternal] at h
    by_cases hr : s.buffered.readbuf_len > 0
    · simp only [hr, true_and, if_true] at h
      split_ifs at h with h1 h2
      · simp only [hne, if_false, Option.some.injEq, Prod.mk.injEq] at h
        exact absurd h.1 hseek
      · simp only [hne, if_false, Option.some.injEq, Prod.mk.injEq] at h
        exact absurd h.1 hseek
      · rw [flush_taken K B _ (by exact hflush)] at h
        simp only [hne, if_false, seekinternal_tail, if_true, Option.some.injEq,
          Prod.mk.injEq, true_and] at h
        rw [← h]
        exact ⟨rfl, rfl, rfl, rfl⟩
    · simp only [hr, false_and, if_false] at h
      split_ifs at h with h2
      · simp only [hne, if_false, Option.some.injEq, Prod.mk.injEq] at h
        exact absurd h.1 hseek
      · rw [flush_taken K B _ (by exact hflush)] at h
        simp only [hne, if_false, seekinternal_tail, if_true, Option.some.injEq,
          Prod.mk.injEq, true_and] at h
        rw [← h]
        exact ⟨rfl, rfl, rfl, rfl⟩
  | MZSTREAM_SEEK_END =>
    simp only [mzstream_buffered_seekinternal, seekinternal_tail] at h
    split_ifs at h with h1
    · simp only [hne, if_false, Option.some.injEq, Prod.mk.injEq] at h
      exact absurd h.1 hseek
    · simp only [if_true, Option.some.injEq, Prod.mk.injEq, true_and] at h
      rw [← h]
      exact ⟨rfl, rfl, rfl, rfl⟩
  | other c =>
    simp only [mzstream_buffered_seekinternal, seekinternal_tail, if_true,
      Option.some.injEq, Prod.mk.injEq, true_and] at h
    rw [← h]
    exact ⟨rfl, rfl, rfl, rfl⟩

/-- C14 at capacity 4, over the in-memory store.  With "AB" in the write cache,
`mzstream_buffered_seek (100, MZSTREAM_SEEK_SET)` has its flush taken in full and returns
`MZSTREAM_ERR`; the write cache, which held 2 bytes, is empty afterwards.  With "HELL" in the
read cache, 3 bytes consumed, and no pending write, `mzstream_buffered_seek (0,
MZSTREAM_SEEK_END)` returns `MZSTREAM_ERR`; the read cache, which held 4 bytes, is empty
afterwards. -/
theorem C14_failure_and_caches_witness :
    (cfg4.MZSTREAM_OK ≠ cfg4.MZSTREAM_ERR ∧
      cachedAB.buffered.writebuf_len = 2 ∧ cachedAB.buffered.writebuf_pos = 2 ∧
      wrap32 ((memStream cfg4).write cachedAB.base
        (slice cachedAB.buffered.writebuf 0 cachedAB.buffered.writebuf_len)).1
          = cachedAB.buffered.writebuf_len ∧
      ((memStream cfg4).seek cachedAB.base 100 Origin.MZSTREAM_SEEK_SET).1
        ≠ cfg4.MZSTREAM_ERR ∧
      ∃ s', mzstream_buffered_seek cfg4 (memStream cfg4) cachedAB 100
          Origin.MZSTREAM_SEEK_SET = some (cfg4.MZSTREAM_ERR, s') ∧
        s'.calls = [Call.write [65, 66]] ∧
        s'.buffered.readbuf_len = 0 ∧ s'.buffered.readbuf_pos = 0 ∧
        s'.buffered.writebuf_len = 0 ∧ s'.buffered.writebuf_pos = 0) ∧
    (readAhead.buffered.readbuf_len = 4 ∧ readAhead.buffered.readbuf_pos = 3 ∧
      readAhead.buffered.writebuf_len = 0 ∧
      ((memStream cfg4).seek readAhead.base 0 Origin.MZSTREAM_SEEK_END).1
        ≠ cfg4.MZSTREAM_ERR ∧
      ∃ s', mzstream_buffered_seek cfg4 (memStream cfg4) readAhead 0
          Origin.MZSTREAM_SEEK_END = some (cfg4.MZSTREAM_ERR, s') ∧
        s'.calls = [] ∧
        s'.buffered.readbuf_len = 0 ∧ s'.buffered.readbuf_pos = 0 ∧
        s'.buffered.writebuf_len = 0 ∧ s'.buffered.writebuf_pos = 0) := by
  have h1 : mzstream_buffered_seek cfg4 (memStream cfg4) cachedAB 100
      Origin.MZSTREAM_SEEK_SET
      = some (cfg4.MZSTREAM_ERR,
          { flush_ok_state (memStream cfg4) cachedAB with buffered :=
              (seekinternal_tail cfg4
                { (flush_ok_state (memStream cfg4) cachedAB).buffered with
                    position := 100 }).2 }) := by
    rfl
  have h2 : mzstream_buffered_seek cfg4 (memStream cfg4) readAhead 0
      Origin.MZSTREAM_SEEK_END
      = some (cfg4.MZSTREAM_ERR,
          { readAhead with buffered := (seekinternal_tail cfg4 readAhead.buffered).2 }) := by
    rfl
  exact ⟨⟨by decide, by decide, by decide, by decide, by decide, _, h1, by decide,
      C14_failure_and_caches cfg4 (memStream cfg4) cachedAB 100 Origin.MZSTREAM_SEEK_SET _
        (by decide) (fun _ => by decide) (by decide) h1⟩,
    ⟨by decide, by decide, by decide, by decide, _, h2, by decide,
      C14_failure_and_caches cfg4 (memStream cfg4) readAhead 0 Origin.MZSTREAM_SEEK_END _
        (by decide) (fun h => absurd h (by decide)) (by decide) h2⟩⟩

/-- C14 fails as stated.  Capacity 4, "AB" in the write cache.  Over a stream whose write
fails, `mzstream_buffered_flush` returns `MZSTREAM_ERR` with `writebuf_len = writebuf_pos = 2`,
and so does `mzstream_buffered_seek (100, MZSTREAM_SEEK_SET)`, whose flush fails.  Over a
stream whose seek fails, `mzstream_buffered_seek (1, MZSTREAM_SEEK_SET)`, which lies in the
write window, returns `MZSTREAM_ERR` with `writebuf_len = 2` and the cursor at 1, no call but
the failed seek having been made. -/
theorem C14_counterexample :
    (mzstream_buffered_flush cfg4 (brokenStream cfg4 (-1)) cachedAB).map
        (fun r => (r.1, r.2.2.buffered.writebuf_len, r.2.2.buffered.writebuf_pos))
      = some (-1, 2, 2) ∧
    (mzstream_buffered_seek cfg4 (brokenStream cfg4 (-1)) cachedAB 100
        Origin.MZSTREAM_SEEK_SET).map
        (fun r => (r.1, r.2.buffered.writebuf_len, r.2.buffered.writebuf_pos))
      = some (-1, 2, 2) ∧
    (mzstream_buffered_seek cfg4 (seekFailStream cfg4) cachedAB 1
        Origin.MZSTREAM_SEEK_SET).map
        (fun r => (r.1, r.2.buffered.writebuf_len, r.2.buffered.writebuf_pos))
      = some (-1, 2, 1) ∧
    (mzstream_buffered_seek cfg4 (seekFailStream cfg4) cachedAB 1
        Origin.MZSTREAM_SEEK_SET).map (fun r => r.2.calls)
      = some [Call.seek 1 Origin.MZSTREAM_SEEK_SET] := by
  decide

/-! ## The write loop under any stream (C11, C20) -/

theorem flush_result_good {β : Type} (K : Config) (B : mzstream β) (s : Sys β)
    (hW : WriteInv K s.buffered) :
    WriteInv K (flush_result K B s).2.2.buffered ∧
    (Typed s.buffered → Typed (flush_result K B s).2.2.buffered) ∧
    (flush_result K B s).2.2.buffered.readbuf_len = s.buffered.readbuf_len ∧
    (flush_result K B s).2.2.buffered.readbuf_pos = s.buffered.readbuf_pos ∧
    (∃ rest, (flush_result K B s).2.2.calls = s.calls ++ rest) ∧
    ((flush_result K B s).1 = K.MZSTREAM_ERR ∨
      ((flush_result K B s).2.1 = s.buffered.writebuf_len ∧
        (flush_result K B s).2.2.buffered.writebuf_len = 0 ∧
        (flush_result K B s).2.2.buffered.writebuf_pos = 0)) := by
  obtain ⟨i3, i4⟩ := hW
  simp only [flush_result]
  unfold Typed WriteInv
  split_ifs with h1 h2 <;> dsimp only
  · refine ⟨⟨le_refl _, Nat.zero_le _⟩, fun ⟨t1, t2, _, _, t5⟩ =>
        ⟨t1, t2, (show (0 : Nat) < 4294967296 by decide),
          (show (0 : Nat) < 4294967296 by decide), t5⟩,
      rfl, rfl, ⟨[], (List.append_nil _).symm⟩, Or.inr ⟨h1.symm, rfl, rfl⟩⟩
  · exact ⟨⟨i3, i4⟩, fun h => h, rfl, rfl, ⟨_, rfl⟩, Or.inl rfl⟩
  · refine ⟨⟨le_refl _, Nat.zero_le _⟩, fun ⟨t1, t2, _, _, _⟩ =>
        ⟨t1, t2, (show (0 : Nat) < 4294967296 by decide),
          (show (0 : Nat) < 4294967296 by decide), wrap64_lt _⟩,
      rfl, rfl, ⟨_, rfl⟩, Or.inr ⟨rfl, rfl, rfl⟩⟩

theorem write_copy_good {β : Type} (K : Config) (s : Sys β) (buf : List Byte)
    (size left : Nat) (hW : WriteInv K s.buffered) :
    WriteInv K (write_copy s buf size left (min left (wrap32 ((K.IOBUF_BUFFERSIZE : Int)
        - (min s.buffered.writebuf_len s.buffered.writebuf_pos : Nat))))).buffered ∧
    (Typed s.buffered →
      Typed (write_copy s buf size left (min left (wrap32 ((K.IOBUF_BUFFERSIZE : Int)
        - (min s.buffered.writebuf_len s.buffered.writebuf_pos : Nat))))).buffered) ∧
    (write_copy s buf size left (min left (wrap32 ((K.IOBUF_BUFFERSIZE : Int)
        - (min s.buffered.writebuf_len s.buffered.writebuf_pos : Nat))))).buffered.readbuf_len
      = s.buffered.readbuf_len ∧
    (write_copy s buf size left (min left (wrap32 ((K.IOBUF_BUFFERSIZE : Int)
        - (min s.buffered.writebuf_len s.buffered.writebuf_pos : Nat))))).buffered.readbuf_pos
      = s.buffered.readbuf_pos ∧
    (write_copy s buf size left (min left (wrap32 ((K.IOBUF_BUFFERSIZE : Int)
        - (min s.buffered.writebuf_len s.buffered.writebuf_pos : Nat))))).calls = s.calls := by
  obtain ⟨i3, i4⟩ := hW
  generalize hc : min left (wrap32 ((K.IOBUF_BUFFERSIZE : Int)
        - (min s.buffered.writebuf_len s.buffered.writebuf_pos : Nat))) = c
  have hcb : c ≤ wrap32 ((K.IOBUF_BUFFERSIZE : Int) - (s.buffered.writebuf_pos : Nat)) := by
    rw [← hc, Nat.min_eq_right i3]; exact Nat.min_le_right _ _
  unfold Typed WriteInv write_copy
  dsimp only
  refine ⟨⟨?_, ?_⟩, fun ⟨t1, t2, t3, _, t5⟩ => ⟨t1, t2, ?_, wrap32_lt _, t5⟩, rfl, rfl, rfl⟩
  · split_ifs with h
    · unfold wrap32 at h ⊢; omega
    · omega
  · split_ifs with h
    · unfold wrap32 at h hcb ⊢; omega
    · exact i4
  · split_ifs
    · exact wrap32_lt _
    · exact t3

theorem write_need_le {β : Type} (K : Config) (s : Sys β) (left : Nat) :
    write_need K s left ≤ 2 * left + 1 := by
  unfold write_need
  split_ifs <;> omega

theorem wrap32_sub_le (a b : Nat) (h : b ≤ a) : wrap32 ((a : Int) - b) ≤ a - b := by
  unfold wrap32; omega

theorem write_loop_spec {β : Type} (K : Config) (B : mzstream β) (buf : List Byte)
    (size : Nat) :
    ∀ (fuel : Nat) (s : Sys β) (left : Nat), WriteInv K s.buffered →
      write_need K s left < fuel →
      ∃ r s', write_loop K B fuel s buf size left = some (r, s') ∧
        WriteInv K s'.buffered ∧ (Typed s.buffered → Typed s'.buffered) ∧
        s'.buffered.readbuf_len = s.buffered.readbuf_len ∧
        s'.buffered.readbuf_pos = s.buffered.readbuf_pos ∧
        (∃ rest, s'.calls = s.calls ++ rest) ∧
        (r = K.MZSTREAM_ERR ∨ r = toI32 (wrap32 size) ∨
          (r = 0 ∧ wrap32 K.IOBUF_BUFFERSIZE = 0)) := by
  intro fuel
  induction fuel with
  | zero => intro s left _ h; omega
  | succ fuel ih =>
    intro s left hI hfuel
    rcases Nat.eq_zero_or_pos left with h0 | hpos
    · subst h0
      refine ⟨_, s, ?_, hI, fun h => h, rfl, rfl, ⟨[], (List.append_nil _).symm⟩,
        Or.inr (Or.inl rfl)⟩
      simp only [write_loop, gt_iff_lt, lt_irrefl, if_false, Nat.cast_zero, sub_zero]
    · have hl0 : left ≠ 0 := by omega
      by_cases hc0 : min left (wrap32 ((K.IOBUF_BUFFERSIZE : Int)
          - (min s.buffered.writebuf_len s.buffered.writebuf_pos : Nat))) = 0
      · -- flush
        obtain ⟨g1, g2, g3, g4, ⟨rest0, g5⟩, g6⟩ := flush_result_good K B s hI
        rcases hfr : flush_result K B s with ⟨r0, w0, s0⟩
        rw [hfr] at g1 g2 g3 g4 g5 g6
        dsimp only at g1 g2 g3 g4 g5 g6
        simp only [write_loop, gt_iff_lt, hpos, if_true, hc0, flush_eq, hfr]
        by_cases hr0 : r0 = K.MZSTREAM_ERR
        · exact ⟨_, s0, by rw [if_pos hr0], g1, g2, g3, g4, ⟨rest0, g5⟩, Or.inl rfl⟩
        · rcases g6 with g6 | ⟨g6, g7, g8⟩
          · exact absurd g6 hr0
          · rw [if_neg hr0]
            by_cases hw0 : w0 = 0
            · refine ⟨_, s0, by rw [if_pos hw0], g1, g2, g3, g4, ⟨rest0, g5⟩,
                Or.inr (Or.inr ⟨rfl, ?_⟩)⟩
              have hwl : s.buffered.writebuf_len = 0 := by omega
              have hwp : s.buffered.writebuf_pos = 0 := by
                have := hI.1; omega
              rw [hwl, hwp] at hc0
              simp only [Nat.min_self, Nat.cast_zero, sub_zero] at hc0
              have : wrap32 (K.IOBUF_BUFFERSIZE : Int) = 0 := by omega
              exact this
            · rw [if_neg hw0]
              have hneed : write_need K s0 left < fuel := by
                have hwl : s.buffered.writebuf_len ≠ 0 := by omega
                unfold write_need at hfuel ⊢
                rw [if_neg hl0, if_pos hc0, if_neg hwl] at hfuel
                rw [if_neg hl0, g7]
                split_ifs <;> omega
              obtain ⟨r, s', h, k1, k2, k3, k4, ⟨rest, k5⟩, k6⟩ := ih s0 left g1 hneed
              exact ⟨r, s', h, k1, fun t => k2 (g2 t), k3.trans g3, k4.trans g4,
                ⟨rest0 ++ rest, by rw [k5, g5, List.append_assoc]⟩, k6⟩
      · -- copy
        obtain ⟨g1, g2, g3, g4, g5⟩ := write_copy_good K s buf size left hI
        have hle : min left (wrap32 ((K.IOBUF_BUFFERSIZE : Int)
            - (min s.buffered.writebuf_len s.buffered.writebuf_pos : Nat))) ≤ left :=
          Nat.min_le_left _ _
        have hlt := wrap32_sub_le left _ hle
        have hneed : write_need K (write_copy s buf size left (min left
            (wrap32 ((K.IOBUF_BUFFERSIZE : Int)
              - (min s.buffered.writebuf_len s.buffered.writebuf_pos : Nat)))))
            (wrap32 ((left : Int) - (min left (wrap32 ((K.IOBUF_BUFFERSIZE : Int)
              - (min s.buffered.writebuf_len s.buffered.writebuf_pos : Nat))) : Nat)))
            < fuel := by
          have hb := write_need_le K (write_copy s buf size left (min left
            (wrap32 ((K.IOBUF_BUFFERSIZE : Int)
              - (min s.buffered.writebuf_len s.buffered.writebuf_pos : Nat)))))
            (wrap32 ((left : Int) - (min left (wrap32 ((K.IOBUF_BUFFERSIZE : Int)
              - (min s.buffered.writebuf_len s.buffered.writebuf_pos : Nat))) : Nat)))
          unfold write_need at hfuel
          rw [if_neg hl0, if_neg hc0] at hfuel
          omega
        obtain ⟨r, s', h, k1, k2, k3, k4, ⟨rest, k5⟩, k6⟩ := ih _ _ g1 hneed
        refine ⟨r, s', ?_, k1, fun t => k2 (g2 t), k3.trans g3, k4.trans g4, ⟨rest, by rw [k5, g5]⟩, k6⟩
        simp only [write_loop, gt_iff_lt, hpos, if_true, hc0, if_false]
        exact h

theorem flush_result_calls {β : Type} (K : Config) (B : mzstream β) (s : Sys β) :
    ∃ rest, (flush_result K B s).2.2.calls = s.calls ++ rest := by
  simp only [flush_result]
  split_ifs <;> dsimp only
  · exact ⟨[], (List.append_nil _).symm⟩
  · exact ⟨_, rfl⟩
  · exact ⟨_, rfl⟩

theorem write_loop_calls {β : Type} (K : Config) (B : mzstream β) (buf : List Byte)
    (size : Nat) :
    ∀ (fuel : Nat) (s : Sys β) (left : Nat) (r : Int) (s' : Sys β),
      write_loop K B fuel s buf size left = some (r, s') →
      ∃ rest, s'.calls = s.calls ++ rest := by
  intro fuel
  induction fuel with
  | zero => intro s left r s' h; simp only [write_loop] at h; exact absurd h (by simp)
  | succ fuel ih =>
    intro s left r s' h
    obtain ⟨rest0, g5⟩ := flush_result_calls K B s
    rcases hfr : flush_result K B s with ⟨r0, w0, s0⟩
    rw [hfr] at g5
    dsimp only at g5
    simp only [write_loop, flush_eq, hfr] at h
    split_ifs at h with h1 h2 h3 h4
    · simp only [Option.some.injEq, Prod.mk.injEq] at h
      exact ⟨rest0, by rw [← h.2, g5]⟩
    · simp only [Option.some.injEq, Prod.mk.injEq] at h
      exact ⟨rest0, by rw [← h.2, g5]⟩
    · obtain ⟨rest, k⟩ := ih _ _ _ _ h
      exact ⟨rest0 ++ rest, by rw [k, g5, List.append_assoc]⟩
    · obtain ⟨rest, k⟩ := ih _ _ _ _ h
      exact ⟨rest, by rw [k]; rfl⟩
    · simp only [Option.some.injEq, Prod.mk.injEq] at h
      exact ⟨[], by rw [← h.2, List.append_nil]⟩

theorem write_unfold {β : Type} (K : Config) (B : mzstream β) (s : Sys β)
    (buf : List Byte) :
    mzstream_buffered_write K B s buf
      = if s.buffered.readbuf_len > 0 then
          (if (B.seek s.base
              (wrap64 ((wrap64 ((s.buffered.position : Int) - s.buffered.readbuf_len) : Int)
                + s.buffered.readbuf_pos)) Origin.MZSTREAM_SEEK_SET).1 = K.MZSTREAM_ERR then
            some (K.MZSTREAM_ERR, write_switch B s)
          else write_loop K B (2 * buf.length + 2) (write_switch B s) buf buf.length
            buf.length)
        else write_loop K B (2 * buf.length + 2) s buf buf.length buf.length := rfl

theorem write_switch_good {β : Type} (K : Config) (B : mzstream β) (s : Sys β)
    (hW : WriteInv K s.buffered) :
    WriteInv K (write_switch B s).buffered ∧
    (Typed s.buffered → Typed (write_switch B s).buffered) ∧
    (write_switch B s).buffered.readbuf_len = 0 ∧
    (write_switch B s).buffered.readbuf_pos = 0 := by
  refine ⟨hW, ?_, rfl, rfl⟩
  intro ⟨_, _, t3, t4, _⟩
  unfold Typed write_switch
  dsimp only
  exact ⟨by decide, by decide, t3, t4, wrap64_lt _⟩

theorem write_spec {β : Type} (K : Config) (B : mzstream β) (s : Sys β) (buf : List Byte)
    (hW : WriteInv K s.buffered) :
    ∃ r s', mzstream_buffered_write K B s buf = some (r, s') ∧
      WriteInv K s'.buffered ∧ (Typed s.buffered → Typed s'.buffered) ∧
      s'.buffered.readbuf_len = 0 ∧
      (s.buffered.readbuf_pos ≤ s.buffered.readbuf_len → s'.buffered.readbuf_pos = 0) ∧
      (∃ rest, s'.calls = s.calls ++ rest) ∧
      (r = K.MZSTREAM_ERR ∨ r = toI32 (wrap32 buf.length) ∨
        (r = 0 ∧ wrap32 K.IOBUF_BUFFERSIZE = 0)) := by
  rw [write_unfold]
  obtain ⟨w1, w2, w3, w4⟩ := write_switch_good K B s hW
  by_cases hr : s.buffered.readbuf_len > 0
  · rw [if_pos hr]
    split_ifs with hq
    · exact ⟨_, _, rfl, w1, w2, w3, fun _ => w4, ⟨_, rfl⟩, Or.inl rfl⟩
    · obtain ⟨r, s', h, k1, k2, k3, k4, ⟨rest, k5⟩, k6⟩ :=
        write_loop_spec K B buf buf.length (2 * buf.length + 2) (write_switch B s) buf.length
          w1 (lt_of_le_of_lt (write_need_le K _ _) (by omega))
      obtain ⟨c0, hc0⟩ : ∃ c0, (write_switch B s).calls = s.calls ++ [c0] := ⟨_, rfl⟩
      refine ⟨r, s', h, k1, fun t => k2 (w2 t), k3.trans w3, fun _ => k4.trans w4,
        ⟨c0 :: rest, ?_⟩, k6⟩
      rw [k5, hc0]
      simp only [List.append_assoc, List.singleton_append]
  · rw [if_neg hr]
    have hr0 : s.buffered.readbuf_len = 0 := by omega
    obtain ⟨r, s', h, k1, k2, k3, k4, k5, k6⟩ :=
      write_loop_spec K B buf buf.length (2 * buf.length + 2) s buf.length hW
        (lt_of_le_of_lt (write_need_le K _ _) (by omega))
    exact ⟨r, s', h, k1, k2, k3.trans hr0, fun hle => by rw [k4]; omega, k5, k6⟩

theorem write_switch_eq {β : Type} (B : mzstream β) (s : Sys β)
    (hr : s.buffered.readbuf_pos < s.buffered.readbuf_len)
    (hp : s.buffered.readbuf_len ≤ s.buffered.position)
    (ht : s.buffered.position < 18446744073709551616) :
    write_switch B s = mode_switch_state B s := by
  have hpos : wrap64 ((wrap64 ((s.buffered.position : Int) - s.buffered.readbuf_len) : Int)
      + s.buffered.readbuf_pos)
      = s.buffered.position - s.buffered.readbuf_len + s.buffered.readbuf_pos := by
    unfold wrap64; omega
  unfold write_switch mode_switch_state
  simp only [hpos]

/-- C11: in every state whose read cache holds unread bytes (`readbuf_pos < readbuf_len <=
position`, `position` a `uint64_t` value), `mzstream_buffered_write` first sets `position` to
`position - readbuf_len + readbuf_pos`, empties the read cache, leaves the write cache as it
is, and calls the seek of the underlying stream with that position and `MZSTREAM_SEEK_SET`;
if that seek returns `MZSTREAM_ERR` the write returns `MZSTREAM_ERR` in exactly this state,
otherwise the copy loop starts from it, so that every later call to the stream comes after
the seek. -/
theorem C11_mode_switch {β : Type} (K : Config) (B : mzstream β) (s : Sys β)
    (buf : List Byte)
    (hr : s.buffered.readbuf_pos < s.buffered.readbuf_len)
    (hp : s.buffered.readbuf_len ≤ s.buffered.position)
    (ht : s.buffered.position < 18446744073709551616) :
    (mode_switch_state B s).buffered.position
        = s.buffered.position - s.buffered.readbuf_len + s.buffered.readbuf_pos ∧
    (mode_switch_state B s).buffered.readbuf_len = 0 ∧
    (mode_switch_state B s).buffered.readbuf_pos = 0 ∧
    (mode_switch_state B s).buffered.writebuf = s.buffered.writebuf ∧
    (mode_switch_state B s).buffered.writebuf_len = s.buffered.writebuf_len ∧
    (mode_switch_state B s).buffered.writebuf_pos = s.buffered.writebuf_pos ∧
    (mode_switch_state B s).calls = s.calls ++ [Call.seek
      (s.buffered.position - s.buffered.readbuf_len + s.buffered.readbuf_pos)
      Origin.MZSTREAM_SEEK_SET] ∧
    ((B.seek s.base (s.buffered.position - s.buffered.readbuf_len + s.buffered.readbuf_pos)
        Origin.MZSTREAM_SEEK_SET).1 = K.MZSTREAM_ERR →
      mzstream_buffered_write K B s buf = some (K.MZSTREAM_ERR, mode_switch_state B s)) ∧
    ((B.seek s.base (s.buffered.position - s.buffered.readbuf_len + s.buffered.readbuf_pos)
        Origin.MZSTREAM_SEEK_SET).1 ≠ K.MZSTREAM_ERR →
      mzstream_buffered_write K B s buf
        = write_loop K B (2 * buf.length + 2) (mode_switch_state B s) buf buf.length
            buf.length) ∧
    (∀ r s', mzstream_buffered_write K B s buf = some (r, s') →
      ∃ rest, s'.calls = s.calls ++ Call.seek
        (s.buffered.position - s.buffered.readbuf_len + s.buffered.readbuf_pos)
        Origin.MZSTREAM_SEEK_SET :: rest) := by
  have hpos : wrap64 ((wrap64 ((s.buffered.position : Int) - s.buffered.readbuf_len) : Int)
      + s.buffered.readbuf_pos)
      = s.buffered.position - s.buffered.readbuf_len + s.buffered.readbuf_pos := by
    unfold wrap64; omega
  have hrl : s.buffered.readbuf_len > 0 := by omega
  have hw : mzstream_buffered_write K B s buf
      = if (B.seek s.base
            (s.buffered.position - s.buffered.readbuf_len + s.buffered.readbuf_pos)
            Origin.MZSTREAM_SEEK_SET).1 = K.MZSTREAM_ERR then
          some (K.MZSTREAM_ERR, mode_switch_state B s)
        else write_loop K B (2 * buf.length + 2) (mode_switch_state B s) buf buf.length
          buf.length := by
    rw [write_unfold, if_pos hrl, write_switch_eq B s hr hp ht, hpos]
  refine ⟨rfl, rfl, rfl, rfl, rfl, rfl, rfl, ?_, ?_, ?_⟩
  · intro hq; rw [hw, if_pos hq]
  · intro hq; rw [hw, if_neg hq]
  · intro r s' h
    rw [hw] at h
    split_ifs at h with hq
    · simp only [Option.some.injEq, Prod.mk.injEq] at h
      exact ⟨[], by rw [← h.2]; rfl⟩
    · obtain ⟨rest, k⟩ := write_loop_calls K B buf buf.length _ _ _ _ _ h
      exact ⟨rest, by rw [k]; simp only [mode_switch_state, List.append_assoc,
        List.singleton_append]⟩

/-- C11 on the spec's scenario (capacity 4, "HELLOWORLD", "HEL" consumed of a cache holding
"HELL"): a write of "X" seeks the stream to 3 first and then caches the byte. -/
theorem C11_mode_switch_witness :
    (readAhead.buffered.readbuf_pos < readAhead.buffered.readbuf_len ∧
      readAhead.buffered.readbuf_len ≤ readAhead.buffered.position ∧
      readAhead.buffered.position < 18446744073709551616) ∧
    (∀ r s', mzstream_buffered_write cfg4 (memStream cfg4) readAhead [88] = some (r, s') →
      ∃ rest, s'.calls = readAhead.calls ++ Call.seek
        (readAhead.buffered.position - readAhead.buffered.readbuf_len
          + readAhead.buffered.readbuf_pos) Origin.MZSTREAM_SEEK_SET :: rest) ∧
    (mzstream_buffered_write cfg4 (memStream cfg4) readAhead [88]).map
        (fun r => (r.1, r.2.calls, r.2.buffered.position, r.2.buffered.readbuf_len,
          r.2.buffered.writebuf_len, r.2.base.cursor))
      = some (1, [Call.seek 3 Origin.MZSTREAM_SEEK_SET], 3, 0, 1, 3) :=
  ⟨⟨by decide, by decide, by decide⟩,
    (C11_mode_switch cfg4 (memStream cfg4) readAhead [88] (by decide) (by decide)
      (by decide)).2.2.2.2.2.2.2.2.2,
    by decide⟩

/-- C20 (amended): for every capacity `0 < C < 2^32`, every state with
`writebuf_pos <= writebuf_len <= C`, every request (a `uint32_t` size) and every stream,
`mzstream_buffered_write` returns: either `MZSTREAM_ERR` (a failed flush or mode-switch seek)
or the size converted to `int32_t` (the size itself when it is below `2^31`).  Every
iteration of its loop with bytes left either copies at least one byte and goes on with
strictly fewer bytes left, or finds the cache full and flushes it; after the flush it either
returns `MZSTREAM_ERR` or the next iteration copies at least one byte into the emptied
cache. -/
theorem C20_write_terminates {β : Type} (K : Config) (B : mzstream β) (s : Sys β)
    (buf : List Byte) (size : Nat)
    (hcap0 : 0 < K.IOBUF_BUFFERSIZE) (hcap : K.IOBUF_BUFFERSIZE < 4294967296)
    (hW : WriteInv K s.buffered) (hsz : buf.length < 4294967296) :
    (∃ r s', mzstream_buffered_write K B s buf = some (r, s') ∧
      (r = K.MZSTREAM_ERR ∨ r = toI32 buf.length) ∧
      (buf.length < 2147483648 → r = K.MZSTREAM_ERR ∨ r = buf.length)) ∧
    (∀ fuel left, 0 < left → left < 4294967296 →
      (s.buffered.writebuf_pos < K.IOBUF_BUFFERSIZE ∧
        0 < min left (K.IOBUF_BUFFERSIZE - s.buffered.writebuf_pos) ∧
        left - min left (K.IOBUF_BUFFERSIZE - s.buffered.writebuf_pos) < left ∧
        write_loop K B (fuel + 1) s buf size left
          = write_loop K B fuel
              (write_copy s buf size left
                (min left (K.IOBUF_BUFFERSIZE - s.buffered.writebuf_pos)))
              buf size (left - min left (K.IOBUF_BUFFERSIZE - s.buffered.writebuf_pos))) ∨
      (s.buffered.writebuf_pos = K.IOBUF_BUFFERSIZE ∧
        s.buffered.writebuf_len = K.IOBUF_BUFFERSIZE ∧
        (flush_result K B s).1 = K.MZSTREAM_ERR ∧
        write_loop K B (fuel + 1) s buf size left
          = some (K.MZSTREAM_ERR, (flush_result K B s).2.2)) ∨
      (s.buffered.writebuf_pos = K.IOBUF_BUFFERSIZE ∧
        s.buffered.writebuf_len = K.IOBUF_BUFFERSIZE ∧
        (flush_result K B s).1 ≠ K.MZSTREAM_ERR ∧
        (flush_result K B s).2.2.buffered.writebuf_len = 0 ∧
        0 < min left K.IOBUF_BUFFERSIZE ∧
        write_loop K B (fuel + 2) s buf size left
          = write_loop K B fuel
              (write_copy (flush_result K B s).2.2 buf size left
                (min left K.IOBUF_BUFFERSIZE))
              buf size (left - min left K.IOBUF_BUFFERSIZE))) := by
  obtain ⟨i3, i4⟩ := hW
  constructor
  · obtain ⟨r, s', h, _, _, _, _, _, k6⟩ := write_spec K B s buf ⟨i3, i4⟩
    have hws : wrap32 (buf.length : Int) = buf.length := wrap32_cast _ hsz
    have hwc : wrap32 (K.IOBUF_BUFFERSIZE : Int) ≠ 0 := by
      rw [wrap32_cast _ hcap]; omega
    rw [hws] at k6
    have k : r = K.MZSTREAM_ERR ∨ r = toI32 buf.length := by
      rcases k6 with k | k | ⟨_, k⟩
      · exact Or.inl k
      · exact Or.inr k
      · exact absurd k hwc
    refine ⟨r, s', h, k, fun hs => ?_⟩
    rcases k with k | k
    · exact Or.inl k
    · refine Or.inr ?_
      rw [k]; unfold toI32; omega
  · intro fuel left hpos hleft
    have hmin : (min s.buffered.writebuf_len s.buffered.writebuf_pos : Nat)
        = s.buffered.writebuf_pos := Nat.min_eq_right i3
    have hroom : wrap32 ((K.IOBUF_BUFFERSIZE : Int)
        - (min s.buffered.writebuf_len s.buffered.writebuf_pos : Nat))
        = K.IOBUF_BUFFERSIZE - s.buffered.writebuf_pos := by
      rw [hmin]; exact wrap32_sub_cast _ _ hcap (by omega)
    by_cases hfull : s.buffered.writebuf_pos < K.IOBUF_BUFFERSIZE
    · refine Or.inl ⟨hfull, by omega, by omega, ?_⟩
      have hc : min left (K.IOBUF_BUFFERSIZE - s.buffered.writebuf_pos) ≠ 0 := by omega
      simp only [write_loop, gt_iff_lt, hpos, if_true, hroom, hc, if_false,
        wrap32_sub_cast left _ hleft (Nat.min_le_left _ _)]
    · have hp : s.buffered.writebuf_pos = K.IOBUF_BUFFERSIZE := by omega
      have hl : s.buffered.writebuf_len = K.IOBUF_BUFFERSIZE := by omega
      have hc : min left (K.IOBUF_BUFFERSIZE - s.buffered.writebuf_pos) = 0 := by omega
      obtain ⟨_, _, _, _, _, g6⟩ := flush_result_good K B s ⟨i3, i4⟩
      rcases hfr : flush_result K B s with ⟨r0, w0, s0⟩
      rw [hfr] at g6
      dsimp only at g6 ⊢
      by_cases hr0 : r0 = K.MZSTREAM_ERR
      · refine Or.inr (Or.inl ⟨hp, hl, hr0, ?_⟩)
        simp only [write_loop, gt_iff_lt, hpos, if_true, hroom, hc, flush_eq, hfr, hr0]
      · rcases g6 with g6 | ⟨g6, g7, g8⟩
        · exact absurd g6 hr0
        · have hw0 : w0 ≠ 0 := by omega
          have hroom' : wrap32 ((K.IOBUF_BUFFERSIZE : Int)
              - (min s0.buffered.writebuf_len s0.buffered.writebuf_pos : Nat))
              = K.IOBUF_BUFFERSIZE := by
            rw [g7, g8, Nat.min_self]
            simp only [Nat.cast_zero, sub_zero]
            exact wrap32_cast _ hcap
          have hc' : min left K.IOBUF_BUFFERSIZE ≠ 0 := by omega
          refine Or.inr (Or.inr ⟨hp, hl, hr0, g7, by omega, ?_⟩)
          simp only [write_loop, gt_iff_lt, hpos, if_true, hroom, hc, flush_eq, hfr, hr0,
            if_false, hw0, hroom', hc', wrap32_sub_cast left _ hleft (Nat.min_le_left _ _)]

/-- C20 at capacity 4: with "ABCD" filling the cache, a write of "E" flushes the full cache,
then copies the byte, and returns 1. -/
theorem C20_write_terminates_witness :
    (0 < cfg4.IOBUF_BUFFERSIZE ∧ cfg4.IOBUF_BUFFERSIZE < 4294967296 ∧
      WriteInv cfg4 (cachedABCD emptyStore).buffered ∧ oneByte.length < 4294967296) ∧
    (∃ r s', mzstream_buffered_write cfg4 (memStream cfg4) (cachedABCD emptyStore) oneByte
        = some (r, s') ∧
      (r = cfg4.MZSTREAM_ERR ∨ r = toI32 oneByte.length) ∧
      (oneByte.length < 2147483648 → r = cfg4.MZSTREAM_ERR ∨ r = oneByte.length)) ∧
    (mzstream_buffered_write cfg4 (memStream cfg4) (cachedABCD emptyStore) oneByte).map
        (fun r => (r.1, r.2.calls, r.2.buffered.writebuf_len))
      = some (1, [Call.write [65, 66, 67, 68]], 1) :=
  ⟨⟨by decide, by decide, by decide, by decide⟩,
    (C20_write_terminates cfg4 (memStream cfg4) (cachedABCD emptyStore) oneByte 1
      (by decide) (by decide) (by decide) (by decide)).1,
    by decide⟩

/-- C20 fails as stated in two places.  With capacity `2^32` the fresh adapter satisfies
`writebuf_pos <= writebuf_len <= C`, yet the one iteration of a one-byte write copies nothing
and flushes an empty cache, and the write returns 0; and with capacity 4 a write of `2^31`
bytes over the in-memory store completes and returns `-2^31`, not its size. -/
theorem C20_counterexample :
    (0 < cfgWide.IOBUF_BUFFERSIZE ∧ WriteInv cfgWide (Sys.init emptyStore).buffered ∧
      (Sys.init emptyStore).buffered.writebuf_len ≠ cfgWide.IOBUF_BUFFERSIZE ∧
      (mzstream_buffered_write cfgWide (memStream cfgWide) (Sys.init emptyStore) oneByte).map
          (fun r => (r.1, r.2.calls, r.2.buffered.writebuf_len)) = some (0, [], 0)) ∧
    ∃ s', mzstream_buffered_write cfg4 (memStream cfg4) (Sys.init emptyStore) hugeBuf
        = some (-2147483648, s') := by
  refine ⟨by decide, ?_⟩
  obtain ⟨s', h, _⟩ := write_accept cfg4 (memStream cfg4) (by decide) (by decide) (by decide)
    (memStream_acceptsAll cfg4) (Sys.init emptyStore) [] hugeBuf
    (by rw [hugeBuf_length]; decide) (RunInv_init cfg4 emptyStore)
  refine ⟨s', ?_⟩
  rw [h, hugeBuf_length]
  rfl

/-! ## Read and seek under any stream -/

theorem read_loop_unfold {β : Type} (K : Config) (B : mzstream β) (size fuel : Nat)
    (s : Sys β) (dest : List Byte) (left : Nat) :
    read_loop K B (fuel + 1) s dest size left 0
      = if left > 0 then
          (if s.buffered.readbuf_len = 0 ∨ s.buffered.readbuf_pos = s.buffered.readbuf_len then
            (if wrap32 (B.read s.base (refill_request K s)).1 ≠ refill_request K s then
              some (0, dest, refill_state K B s)
            else some (toI32 (wrap32 ((size : Int) - left)), dest, refill_done K B s))
          else
            (if wrap32 ((s.buffered.readbuf_len : Int) - s.buffered.readbuf_pos) > 0 then
              read_loop K B fuel
                (read_copy s (min left
                  (wrap32 ((s.buffered.readbuf_len : Int) - s.buffered.readbuf_pos))))
                (dest ++ slice s.buffered.readbuf s.buffered.readbuf_pos (min left
                  (wrap32 ((s.buffered.readbuf_len : Int) - s.buffered.readbuf_pos))))
                size
                (wrap32 ((left : Int) - (min left
                  (wrap32 ((s.buffered.readbuf_len : Int) - s.buffered.readbuf_pos)) : Nat)))
                0
            else read_loop K B fuel s dest size left 0))
        else some (toI32 (wrap32 ((size : Int) - left)), dest, s) := by
  simp only [read_loop, refill_request, refill_state, refill_done, read_copy]
  split_ifs <;> rfl

theorem store_read_inbounds (K : Config) :
    ∀ (data : List Byte) (b : mzstream_buffered) (i : Nat),
      i + data.length ≤ K.IOBUF_BUFFERSIZE →
      ∃ f, store_read K b i data = { b with readbuf := f } := by
  intro data
  induction data with
  | nil => intro b i _; exact ⟨b.readbuf, rfl⟩
  | cons x data ih =>
    intro b i h
    simp only [List.length_cons] at h
    have hi : i < K.IOBUF_BUFFERSIZE := by omega
    obtain ⟨f, hf⟩ := ih (store_byte K b i x) (i + 1) (by omega)
    refine ⟨f, ?_⟩
    simp only [store_read, hf]
    simp only [store_byte, hi, if_true]

theorem refill_request_empty {β : Type} (K : Config) (s : Sys β)
    (h0 : s.buffered.readbuf_len = 0) (h1 : s.buffered.readbuf_pos = 0) :
    refill_request K s = wrap32 K.IOBUF_BUFFERSIZE := by
  unfold refill_request
  rw [h0, h1]
  simp only [Nat.cast_zero, sub_self, wrap32_zero, sub_zero, ite_self]

theorem wrap32_le_self (n : Nat) : wrap32 (n : Int) ≤ n := by
  unfold wrap32; omega

theorem refill_state_empty {β : Type} (K : Config) (B : mzstream β) (s : Sys β)
    (h0 : s.buffered.readbuf_len = 0) (h1 : s.buffered.readbuf_pos = 0) :
    (refill_state K B s).buffered.readbuf_len = 0 ∧
    (refill_state K B s).buffered.readbuf_pos = 0 ∧
    (refill_state K B s).buffered.writebuf_len = s.buffered.writebuf_len ∧
    (refill_state K B s).buffered.writebuf_pos = s.buffered.writebuf_pos ∧
    (refill_state K B s).buffered.position = s.buffered.position ∧
    (refill_state K B s).calls = s.calls ++ [Call.read (wrap32 K.IOBUF_BUFFERSIZE)] := by
  have hreq := refill_request_empty K s h0 h1
  have hlen : ((B.read s.base (wrap32 K.IOBUF_BUFFERSIZE)).2.1.take
      (wrap32 K.IOBUF_BUFFERSIZE)).length ≤ K.IOBUF_BUFFERSIZE :=
    le_trans (List.length_take_le _ _) (wrap32_le_self _)
  by_cases h : s.buffered.readbuf_len = K.IOBUF_BUFFERSIZE
  · obtain ⟨f, hf⟩ := store_read_inbounds K
      ((B.read s.base (wrap32 K.IOBUF_BUFFERSIZE)).2.1.take (wrap32 K.IOBUF_BUFFERSIZE))
      { s.buffered with readbuf_pos := 0, readbuf_len := 0 } 0 (by omega)
    unfold refill_state
    dsimp only
    rw [hreq, if_pos h]
    dsimp only
    rw [hf]
    exact ⟨rfl, rfl, rfl, rfl, rfl, rfl⟩
  · obtain ⟨f, hf⟩ := store_read_inbounds K
      ((B.read s.base (wrap32 K.IOBUF_BUFFERSIZE)).2.1.take (wrap32 K.IOBUF_BUFFERSIZE))
      s.buffered 0 (by omega)
    unfold refill_state
    dsimp only
    rw [hreq, if_neg h, h1, hf]
    exact ⟨h0, h1, rfl, rfl, rfl, rfl⟩

theorem refill_done_empty {β : Type} (K : Config) (B : mzstream β) (s : Sys β)
    (h0 : s.buffered.readbuf_len = 0) (h1 : s.buffered.readbuf_pos = 0) :
    (refill_done K B s).buffered.readbuf_len = 0 ∧
    (refill_done K B s).buffered.readbuf_pos = 0 ∧
    (refill_done K B s).buffered.writebuf_len = s.buffered.writebuf_len ∧
    (refill_done K B s).buffered.writebuf_pos = s.buffered.writebuf_pos ∧
    (s.buffered.position < 18446744073709551616 →
      (refill_done K B s).buffered.position = s.buffered.position) ∧
    (refill_done K B s).calls = s.calls ++ [Call.read (wrap32 K.IOBUF_BUFFERSIZE)] := by
  obtain ⟨g1, g2, g3, g4, g5, g6⟩ := refill_state_empty K B s h0 h1
  unfold refill_done
  dsimp only
  rw [g1, g5]
  refine ⟨rfl, g2, g3, g4, ?_, g6⟩
  intro hp
  unfold wrap64; omega

theorem read_empty {β : Type} (K : Config) (B : mzstream β) (s : Sys β) (size : Nat)
    (h0 : s.buffered.readbuf_len = 0) (h1 : s.buffered.readbuf_pos = 0) (hsz : 0 < size) :
    ∃ s', mzstream_buffered_read K B s size = some (0, [], s') ∧
      s'.buffered.readbuf_len = 0 ∧ s'.buffered.readbuf_pos = 0 ∧
      s'.calls = s.calls ++ [Call.read (wrap32 K.IOBUF_BUFFERSIZE)] ∧
      (s.buffered.position < 18446744073709551616 →
        s'.buffered.position = s.buffered.position) ∧
      s'.buffered.writebuf_len = s.buffered.writebuf_len ∧
      s'.buffered.writebuf_pos = s.buffered.writebuf_pos := by
  obtain ⟨a1, a2, a3, a4, a5, a6⟩ := refill_state_empty K B s h0 h1
  obtain ⟨b1, b2, b3, b4, b5, b6⟩ := refill_done_empty K B s h0 h1
  have hz : toI32 (wrap32 ((size : Int) - size)) = 0 := by
    rw [sub_self]; rfl
  unfold mzstream_buffered_read
  rw [read_loop_unfold, if_pos hsz, if_pos (Or.inl h0), hz]
  split_ifs
  · exact ⟨_, rfl, a1, a2, a6, fun _ => a5, a3, a4⟩
  · exact ⟨_, rfl, b1, b2, b6, b5, b3, b4⟩

theorem seekinternal_spec {β : Type} (K : Config) (B : mzstream β) (s : Sys β)
    (offset : Nat) (origin : Origin)
    (hT : Typed s.buffered) (hI : CacheInv K s.buffered)
    (ho : offset < 18446744073709551616) :
    ∃ r s', mzstream_buffered_seekinternal K B s offset origin = some (r, s') ∧
      Typed s'.buffered ∧ CacheInv K s'.buffered ∧
      (s.buffered.readbuf_len = 0 →
        s'.buffered.readbuf_len = 0 ∧ s'.buffered.readbuf_pos = 0) := by
  obtain ⟨t1, t2, t3, t4, t5⟩ := hT
  obtain ⟨i1, i2, i3, i4⟩ := hI
  cases origin with
  | MZSTREAM_SEEK_SET =>
    obtain ⟨g1, g2, g3, g4, _, _⟩ := flush_result_good K B s ⟨i3, i4⟩
    rcases hfr : flush_result K B s with ⟨r0, w0, s0⟩
    rw [hfr] at g1 g2 g3 g4
    dsimp only at g1 g2 g3 g4
    obtain ⟨u1, u2, u3, u4, u5⟩ := g2 ⟨t1, t2, t3, t4, t5⟩
    simp only [mzstream_buffered_seekinternal, flush_eq, hfr, seekinternal_tail]
    split_ifs with h1 h2 h3
    · refine ⟨_, _, rfl, ?_⟩
      unfold Typed CacheInv
      dsimp only
      simp only [wrap32, wrap64] at *
      omega
    · refine ⟨_, _, rfl, ?_⟩
      unfold Typed CacheInv
      dsimp only
      simp only [wrap32, wrap64] at *
      omega
    · refine ⟨_, _, rfl, ?_⟩
      unfold Typed CacheInv WriteInv at *
      omega
    · refine ⟨_, _, rfl, ?_⟩
      unfold Typed CacheInv
      dsimp only
      omega
  | MZSTREAM_SEEK_CUR =>
    by_cases hr : s.buffered.readbuf_len > 0
    · obtain ⟨g1, g2, g3, g4, _, _⟩ := flush_result_good K B
        { s with buffered := { s.buffered with position :=
            (wrap64 ((s.buffered.position : Int) + ((wrap64 ((offset : Int)
              - ((wrap32 ((s.buffered.readbuf_len : Int) - s.buffered.readbuf_pos) : Nat)
                : Int)) : Nat) : Int))) } }
        ⟨i3, i4⟩
      rcases hfr : flush_result K B
        { s with buffered := { s.buffered with position :=
            (wrap64 ((s.buffered.position : Int) + ((wrap64 ((offset : Int)
              - ((wrap32 ((s.buffered.readbuf_len : Int) - s.buffered.readbuf_pos) : Nat)
                : Int)) : Nat) : Int))) } }
        with ⟨r0, w0, s0⟩
      rw [hfr] at g1 g2 g3 g4
      dsimp only at g1 g2 g3 g4
      obtain ⟨u1, u2, u3, u4, u5⟩ := g2
        (by unfold Typed; dsimp only; exact ⟨t1, t2, t3, t4, wrap64_lt _⟩)
      simp only [mzstream_buffered_seekinternal, hr, true_and, if_true, flush_eq, hfr,
        seekinternal_tail]
      split_ifs with h1 h2 h3
      · refine ⟨_, _, rfl, ?_⟩
        unfold Typed CacheInv
        dsimp only
        simp only [wrap32, wrap64] at *
        omega
      · refine ⟨_, _, rfl, ?_⟩
        unfold Typed CacheInv
        dsimp only
        simp only [wrap32, wrap64] at *
        omega
      · refine ⟨_, _, rfl, ?_⟩
        unfold Typed CacheInv WriteInv at *
        omega
      · refine ⟨_, _, rfl, ?_⟩
        unfold Typed CacheInv
        dsimp only
        omega
    · obtain ⟨g1, g2, g3, g4, _, _⟩ := flush_result_good K B s ⟨i3, i4⟩
      rcases hfr : flush_result K B s with ⟨r0, w0, s0⟩
      rw [hfr] at g1 g2 g3 g4
      dsimp only at g1 g2 g3 g4
      obtain ⟨u1, u2, u3, u4, u5⟩ := g2 ⟨t1, t2, t3, t4, t5⟩
      simp only [mzstream_buffered_seekinternal, hr, false_and, if_false, flush_eq, hfr,
        seekinternal_tail]
      split_ifs with h2 h3
      · refine ⟨_, _, rfl, ?_⟩
        unfold Typed CacheInv
        dsimp only
        simp only [wrap32, wrap64] at *
        omega
      · refine ⟨_, _, rfl, ?_⟩
        unfold Typed CacheInv WriteInv at *
        omega
      · refine ⟨_, _, rfl, ?_⟩
        unfold Typed CacheInv
        dsimp only
        omega
  | MZSTREAM_SEEK_END =>
    simp only [mzstream_buffered_seekinternal, seekinternal_tail]
    split_ifs with h1
    · refine ⟨_, _, rfl, ?_⟩
      unfold Typed CacheInv
      dsimp only
      omega
    · refine ⟨_, _, rfl, ?_⟩
      unfold Typed CacheInv
      dsimp only
      omega
  | other c =>
    simp only [mzstream_buffered_seekinternal, seekinternal_tail]
    refine ⟨_, _, rfl, ?_⟩
    unfold Typed CacheInv
    dsimp only
    omega

theorem seek_spec {β : Type} (K : Config) (B : mzstream β) (s : Sys β)
    (offset : Nat) (origin : Origin)
    (hT : Typed s.buffered) (hI : CacheInv K s.buffered)
    (ho : offset < 18446744073709551616) :
    ∃ r s', mzstream_buffered_seek K B s offset origin = some (r, s') ∧
      Typed s'.buffered ∧ CacheInv K s'.buffered ∧
      (s.buffered.readbuf_len = 0 →
        s'.buffered.readbuf_len = 0 ∧ s'.buffered.readbuf_pos = 0) := by
  obtain ⟨r, s1, h, k1, k2, k3⟩ := seekinternal_spec K B s offset origin hT hI ho
  simp only [mzstream_buffered_seek, h]
  split_ifs
  · exact ⟨_, _, rfl, k1, k2, k3⟩
  · exact ⟨_, _, rfl, k1, k2, k3⟩

theorem flush_spec {β : Type} (K : Config) (B : mzstream β) (s : Sys β)
    (hT : Typed s.buffered) (hI : CacheInv K s.buffered) :
    ∃ r w s', mzstream_buffered_flush K B s = some (r, w, s') ∧
      Typed s'.buffered ∧ CacheInv K s'.buffered ∧
      s'.buffered.readbuf_len = s.buffered.readbuf_len ∧
      s'.buffered.readbuf_pos = s.buffered.readbuf_pos := by
  obtain ⟨i1, i2, i3, i4⟩ := hI
  obtain ⟨g1, g2, g3, g4, _, _⟩ := flush_result_good K B s ⟨i3, i4⟩
  exact ⟨(flush_result K B s).1, (flush_result K B s).2.1, (flush_result K B s).2.2,
    flush_eq K B s, g2 hT,
    ⟨by rw [g3, g4]; exact i1, by rw [g3]; exact i2, g1.1, g1.2⟩, g3, g4⟩

theorem close_spec {β : Type} (K : Config) (B : mzstream β) (s : Sys β)
    (hT : Typed s.buffered) (hI : CacheInv K s.buffered) :
    ∃ r s', mzstream_buffered_close K B s = some (r, s') ∧
      Typed s'.buffered ∧ CacheInv K s'.buffered := by
  obtain ⟨r, w, s1, h, k1, k2, _, _⟩ := flush_spec K B s hT hI
  simp only [mzstream_buffered_close, h]
  exact ⟨_, _, rfl, k1, k2⟩

theorem tell_spec {β : Type} (K : Config) (B : mzstream β) (s : Sys β)
    (hT : Typed s.buffered) (hI : CacheInv K s.buffered) :
    Typed (mzstream_buffered_tell B s).2.buffered ∧
    CacheInv K (mzstream_buffered_tell B s).2.buffered ∧
    (mzstream_buffered_tell B s).2.buffered.readbuf_len = s.buffered.readbuf_len ∧
    (mzstream_buffered_tell B s).2.buffered.readbuf_pos = s.buffered.readbuf_pos := by
  obtain ⟨t1, t2, t3, t4, _⟩ := hT
  unfold mzstream_buffered_tell mzstream_buffered_tellinternal Typed
  dsimp only
  exact ⟨⟨t1, t2, t3, t4, wrap64_lt _⟩, hI, rfl, rfl⟩

theorem write_spec_full {β : Type} (K : Config) (B : mzstream β) (s : Sys β)
    (buf : List Byte) (hT : Typed s.buffered) (hI : CacheInv K s.buffered) :
    ∃ r s', mzstream_buffered_write K B s buf = some (r, s') ∧
      Typed s'.buffered ∧ CacheInv K s'.buffered ∧
      s'.buffered.readbuf_len = 0 ∧ s'.buffered.readbuf_pos = 0 := by
  obtain ⟨i1, i2, i3, i4⟩ := hI
  obtain ⟨r, s', h, k1, k2, k3, k4, _, _⟩ := write_spec K B s buf ⟨i3, i4⟩
  refine ⟨r, s', h, k2 hT, ?_, k3, k4 i1⟩
  unfold CacheInv
  rw [k3, k4 i1]
  exact ⟨le_refl _, Nat.zero_le _, k1.1, k1.2⟩

theorem read_keeps_empty {β : Type} (K : Config) (B : mzstream β) (s : Sys β) (size : Nat)
    (h0 : s.buffered.readbuf_len = 0) (h1 : s.buffered.readbuf_pos = 0) :
    ∃ s', mzstream_buffered_read K B s size = some (0, [], s') ∧
      s'.buffered.readbuf_len = 0 ∧ s'.buffered.readbuf_pos = 0 ∧
      (size = 0 → s' = s) ∧
      s'.buffered.writebuf_len = s.buffered.writebuf_len ∧
      s'.buffered.writebuf_pos = s.buffered.writebuf_pos ∧
      (s.buffered.position < 18446744073709551616 →
        s'.buffered.position = s.buffered.position) := by
  rcases Nat.eq_zero_or_pos size with hz | hp
  · subst hz
    refine ⟨s, ?_, h0, h1, fun _ => rfl, rfl, rfl, fun _ => rfl⟩
    unfold mzstream_buffered_read
    rw [read_loop_unfold, if_neg (lt_irrefl 0)]
    rfl
  · obtain ⟨s', h, k1, k2, _, k4, k5, k6⟩ := read_empty K B s size h0 h1 hp
    exact ⟨s', h, k1, k2, fun hz => by omega, k5, k6, k4⟩

theorem reachable_inv {β : Type} (K : Config) (B : mzstream β) (b0 : β) (s : Sys β)
    (hs : Reachable K B b0 s) :
    Typed s.buffered ∧ CacheInv K s.buffered ∧
      s.buffered.readbuf_len = 0 ∧ s.buffered.readbuf_pos = 0 := by
  induction hs with
  | init =>
    have hz : (0 : Nat) < 4294967296 := by decide
    have hz64 : (0 : Nat) < 18446744073709551616 := by decide
    exact ⟨⟨hz, hz, hz, hz, hz64⟩, ⟨le_refl _, Nat.zero_le _, le_refl _, Nat.zero_le _⟩,
      rfl, rfl⟩
  | read s size r dest s' _ h ih =>
    obtain ⟨⟨_, _, t3, t4, t5⟩, ⟨_, _, i3, i4⟩, h0, h1⟩ := ih
    obtain ⟨s2, e2, k0, k1, _, k3, k4, k5⟩ := read_keeps_empty K B s size h0 h1
    rw [h] at e2
    simp only [Option.some.injEq, Prod.mk.injEq] at e2
    obtain ⟨_, _, rfl⟩ := e2
    have hz : (0 : Nat) < 4294967296 := by decide
    refine ⟨⟨by rw [k0]; exact hz, by rw [k1]; exact hz, by rw [k3]; exact t3,
      by rw [k4]; exact t4, by rw [k5 t5]; exact t5⟩, ?_, k0, k1⟩
    unfold CacheInv
    rw [k0, k1, k3, k4]
    exact ⟨le_refl _, Nat.zero_le _, i3, i4⟩
  | write s buf r s' _ h ih =>
    obtain ⟨hT, hI, _, _⟩ := ih
    obtain ⟨r1, s1, e1, kT, kI, k0, k1⟩ := write_spec_full K B s buf hT hI
    rw [h] at e1
    simp only [Option.some.injEq, Prod.mk.injEq] at e1
    obtain ⟨_, rfl⟩ := e1
    exact ⟨kT, kI, k0, k1⟩
  | seek s offset origin r s' _ ho h ih =>
    obtain ⟨hT, hI, h0, _⟩ := ih
    obtain ⟨r1, s1, e1, kT, kI, k0⟩ := seek_spec K B s offset origin hT hI ho
    rw [h] at e1
    simp only [Option.some.injEq, Prod.mk.injEq] at e1
    obtain ⟨_, rfl⟩ := e1
    exact ⟨kT, kI, (k0 h0).1, (k0 h0).2⟩
  | tell s _ ih =>
    obtain ⟨hT, hI, h0, h1⟩ := ih
    obtain ⟨kT, kI, k0, k1⟩ := tell_spec K B s hT hI
    exact ⟨kT, kI, k0.trans h0, k1.trans h1⟩
  | flush s r written s' _ h ih =>
    obtain ⟨hT, hI, h0, h1⟩ := ih
    obtain ⟨r1, w1, s1, e1, kT, kI, k0, k1⟩ := flush_spec K B s hT hI
    rw [h] at e1
    simp only [Option.some.injEq, Prod.mk.injEq] at e1
    obtain ⟨_, _, rfl⟩ := e1
    exact ⟨kT, kI, k0.trans h0, k1.trans h1⟩

/-- C17: in every state reachable from the zero-initialised adapter by read, write, seek,
tell and flush calls, over any stream, the read cache and the write cache are not both
non-empty. -/
theorem C17_one_cache_active {β : Type} (K : Config) (B : mzstream β) (b0 : β) (s : Sys β)
    (hs : Reachable K B b0 s) :
    ¬ (s.buffered.readbuf_len > 0 ∧ s.buffered.writebuf_len > 0) := by
  obtain ⟨_, _, h0, _⟩ := reachable_inv K B b0 s hs
  omega

/-- C17 at capacity 4: after a write of "AB" the write cache holds 2 bytes and the read cache
is empty. -/
theorem C17_one_cache_active_witness :
    Reachable cfg4 (memStream cfg4) emptyStore cachedAB ∧
    cachedAB.buffered.writebuf_len = 2 ∧
    ¬ (cachedAB.buffered.readbuf_len > 0 ∧ cachedAB.buffered.writebuf_len > 0) :=
  have hR : Reachable cfg4 (memStream cfg4) emptyStore cachedAB :=
    Reachable.write (Sys.init emptyStore) [65, 66] 2 cachedAB Reachable.init rfl
  ⟨hR, by decide, C17_one_cache_active cfg4 (memStream cfg4) emptyStore cachedAB hR⟩

/-- C19 (amended): in every state reachable from the zero-initialised adapter by read, write,
seek, tell and flush calls, over any stream, `readbuf_len = 0` and `readbuf_pos = 0`;
`mzstream_buffered_read` returns 0 for every requested size and copies nothing to the caller;
each read with `size > 0` makes exactly one call to the stream, a read of
`(uint32_t) capacity` bytes - capacity bytes when the capacity is below `2^32` - and leaves
`position` unchanged; a read with `size = 0` makes no call. -/
theorem C19_read_cache_never_fills {β : Type} (K : Config) (B : mzstream β) (b0 : β)
    (s : Sys β) (hs : Reachable K B b0 s) :
    s.buffered.readbuf_len = 0 ∧ s.buffered.readbuf_pos = 0 ∧
    ∀ size, ∃ s', mzstream_buffered_read K B s size = some (0, [], s') ∧
      (0 < size →
        s'.calls = s.calls ++ [Call.read (wrap32 K.IOBUF_BUFFERSIZE)] ∧
        (K.IOBUF_BUFFERSIZE < 4294967296 →
          s'.calls = s.calls ++ [Call.read K.IOBUF_BUFFERSIZE]) ∧
        s'.buffered.position = s.buffered.position) ∧
      (size = 0 → s'.calls = s.calls) := by
  obtain ⟨hT, _, h0, h1⟩ := reachable_inv K B b0 s hs
  refine ⟨h0, h1, fun size => ?_⟩
  rcases Nat.eq_zero_or_pos size with hz | hp
  · obtain ⟨s', h, _, _, k, _⟩ := read_keeps_empty K B s size h0 h1
    exact ⟨s', h, fun hp => by omega, fun _ => by rw [k hz]⟩
  · obtain ⟨s', h, _, _, kc, kp, _⟩ := read_empty K B s size h0 h1 hp
    exact ⟨s', h, fun _ => ⟨kc, fun hcap => by rw [kc, wrap32_cast _ hcap], kp hT.2.2.2.2⟩,
      fun hz => by omega⟩

/-- C19 at capacity 4 over "HELLOWORLD": the fresh adapter is reachable, and a read of 3
returns 0 after one read call for 4 bytes, with `position` still 0. -/
theorem C19_read_cache_never_fills_witness :
    Reachable cfg4 (memStream cfg4) helloStore (Sys.init helloStore) ∧
    ∃ s', mzstream_buffered_read cfg4 (memStream cfg4) (Sys.init helloStore) 3
        = some (0, [], s') ∧
      s'.calls = [Call.read 4] ∧ s'.buffered.position = 0 := by
  obtain ⟨s', h, k, _⟩ :=
    (C19_read_cache_never_fills cfg4 (memStream cfg4) helloStore (Sys.init helloStore)
      Reachable.init).2.2 3
  exact ⟨Reachable.init, s', h, (k (by decide)).2.1 (by decide), (k (by decide)).2.2⟩

/-- C19 fails as stated for capacity `2^32`: on the fresh adapter a read of 1 byte asks the
stream for 0 bytes, not for capacity bytes. -/
theorem C19_counterexample :
    (mzstream_buffered_read cfgWide (memStream cfgWide) (Sys.init helloStore) 1).map
        (fun r => (r.1, r.2.1, r.2.2.calls)) = some (0, [], [Call.read 0]) ∧
    cfgWide.IOBUF_BUFFERSIZE = 4294967296 := by
  decide

end IoapiBuf
